import Mathlib

/-!
Verification of the POVerlay render-job orchestration engine
(`apps/api/app/main.py`) against its natural-language specification.

The Python source is shallowly embedded: Python floats are modelled as
rationals (`ℚ`), Python strings as Lean `String`, dict-shaped job
documents as structures, and the worker/queue/renderer side effects as
explicit state passing with oracle functions for the external
collaborators (ffprobe, the renderer subprocess, object storage).
-/

namespace POverlay

/-! ## Python string primitives

`str.strip` (whitespace strip), `str.lower`, substring containment
(`needle in haystack`), and the ANSI escape removal regex
(ESC, bracket, parameter bytes 0x30-0x3F, intermediate bytes
0x20-0x2F, one final byte 0x40-0x7E) used by `_normalize_console_line`.
Whitespace is modelled over the ASCII / latin-1 whitespace characters
recognised by `str.strip`.
-/

def isPyWhitespace (c : Char) : Bool :=
  c = ' ' || c = '\t' || c = '\n' || c = '\x0d' ||
  c = '\x0b' || c = '\x0c' ||
  c = '\x1c' || c = '\x1d' || c = '\x1e' || c = '\x1f' || c = '\x85'

/-- Python `str.strip()`: drop leading and trailing whitespace. -/
def pyStrip (s : String) : String :=
  ⟨((s.toList.dropWhile isPyWhitespace).reverse.dropWhile isPyWhitespace).reverse⟩

/-- Python `str.lower()` restricted to ASCII case mapping. -/
def pyLower (s : String) : String := ⟨s.toList.map Char.toLower⟩

/-- Does `pat` occur at the head of `l`? -/
def listLeadMatch : List Char → List Char → Bool
  | [], _ => true
  | _ :: _, [] => false
  | a :: as, b :: bs => a = b && listLeadMatch as bs

/-- Does `pat` occur anywhere inside `l`? (Python `pat in l`.) -/
def listOccurs (pat : List Char) : List Char → Bool
  | [] => pat.isEmpty
  | c :: rest => listLeadMatch pat (c :: rest) || listOccurs pat rest

/-- Python `needle in hay` on strings. -/
def strContains (hay needle : String) : Bool :=
  listOccurs needle.toList hay.toList

/-- The apostrophe character, U+0027. -/
def apos : String := ⟨[Char.ofNat 39]⟩

/-! ## `_safe_filename`

`re.sub(r"[^A-Za-z0-9._-]+", "_", name.strip()) or "file"`: every
maximal run of characters outside `[A-Za-z0-9._-]` is replaced by a
single underscore, and an empty result falls back to `"file"`.
-/

def isSafeChar (c : Char) : Bool :=
  ('A' ≤ c && c ≤ 'Z') || ('a' ≤ c && c ≤ 'z') || ('0' ≤ c && c ≤ '9') ||
  c = '.' || c = '_' || c = '-'

/-- Replace maximal runs of unsafe characters by one `_`.  The flag
records whether the previous character belonged to an unsafe run. -/
def subUnsafeRuns : Bool → List Char → List Char
  | _, [] => []
  | inRun, c :: rest =>
    if isSafeChar c then c :: subUnsafeRuns false rest
    else if inRun then subUnsafeRuns true rest
    else '_' :: subUnsafeRuns true rest

/-- `_safe_filename` from `apps/api/app/main.py`. -/
def safeFilename (name : String) : String :=
  let safe : List Char := subUnsafeRuns false (pyStrip name).toList
  if safe.isEmpty then "file" else ⟨safe⟩

lemma subUnsafeRuns_all_safe (l : List Char) :
    ∀ (b : Bool), ∀ c ∈ subUnsafeRuns b l, isSafeChar c = true := by
  induction l with
  | nil => intro b c hc; simp [subUnsafeRuns] at hc
  | cons a rest ih =>
    intro b c hc
    by_cases ha : isSafeChar a
    · have hrw : subUnsafeRuns b (a :: rest) = a :: subUnsafeRuns false rest := by
        simp [subUnsafeRuns, ha]
      rw [hrw] at hc
      rcases List.mem_cons.mp hc with h1 | h1
      · rw [h1]; exact ha
      · exact ih false c h1
    · cases b with
      | true =>
        have hrw : subUnsafeRuns true (a :: rest) = subUnsafeRuns true rest := by
          simp [subUnsafeRuns, ha]
        rw [hrw] at hc
        exact ih true c hc
      | false =>
        have hrw : subUnsafeRuns false (a :: rest) = '_' :: subUnsafeRuns true rest := by
          simp [subUnsafeRuns, ha]
        rw [hrw] at hc
        rcases List.mem_cons.mp hc with h1 | h1
        · rw [h1]; decide
        · exact ih true c h1

lemma subUnsafeRuns_false_ne_nil (c : Char) (l : List Char) :
    subUnsafeRuns false (c :: l) ≠ [] := by
  by_cases hc : isSafeChar c <;> simp [subUnsafeRuns, hc]

lemma dropWhile_eq_nil_of_all {α : Type} (p : α → Bool) :
    ∀ l : List α, l.all p → l.dropWhile p = []
  | [], _ => rfl
  | c :: rest, h => by
    simp only [List.all_cons, Bool.and_eq_true] at h
    simp [List.dropWhile, h.1, dropWhile_eq_nil_of_all p rest h.2]

lemma pyStrip_of_all_whitespace (name : String)
    (h : name.toList.all isPyWhitespace) : pyStrip name = "" := by
  have hdrop : name.toList.dropWhile isPyWhitespace = [] :=
    dropWhile_eq_nil_of_all isPyWhitespace name.toList h
  unfold pyStrip
  rw [hdrop]
  rfl

/-- **C9.** For every input string the filename sanitizer returns a
non-empty string whose characters all lie in `[A-Za-z0-9._-]`, and an
empty or whitespace-only input yields the literal name `"file"`. -/
theorem safeFilename_safe (name : String) :
    (safeFilename name).toList ≠ [] ∧
    (∀ c ∈ (safeFilename name).toList, isSafeChar c = true) ∧
    (name.toList.all isPyWhitespace → safeFilename name = "file") := by
  refine ⟨?_, ?_, ?_⟩
  · unfold safeFilename
    by_cases he : (subUnsafeRuns false (pyStrip name).toList).isEmpty
    · simp only [he, if_pos]
      decide
    · simp only [he, Bool.false_eq_true, if_neg, not_false_iff]
      exact List.isEmpty_eq_false.mp (Bool.not_eq_true _ ▸ by simpa using he)
  · intro c hc
    unfold safeFilename at hc
    by_cases he : (subUnsafeRuns false (pyStrip name).toList).isEmpty
    · simp only [he, if_pos] at hc
      have hall : ∀ x ∈ ("file" : String).toList, isSafeChar x = true := by decide
      exact hall c hc
    · simp only [he, Bool.false_eq_true, if_neg, not_false_iff] at hc
      exact subUnsafeRuns_all_safe _ false c hc
  · intro hws
    unfold safeFilename
    rw [pyStrip_of_all_whitespace name hws]
    decide

/-- **C9 witness**: concrete evaluations discharging the hypothesis of
the whitespace clause. -/
theorem safeFilename_safe_witness :
    (safeFilename "  ").toList ≠ [] ∧
    (∀ c ∈ (safeFilename "  ").toList, isSafeChar c = true) ∧
    ("  ".toList.all isPyWhitespace → safeFilename "  " = "file") :=
  safeFilename_safe "  "

/-! ## Upload-name deduplication (`create_job`)

`create_job` walks the uploads with `enumerate(..., start=1)`, sanitizes
each original filename, and while the sanitized name is already taken
renames it to `f"{Path(name).stem}-{index}{Path(name).suffix}"`.
`Path(name).stem` / `.suffix` follow `pathlib`: the suffix is the part
from the last dot when that dot is neither the first nor the last
character of the path's final component; the names `"."` and `".."`
have an empty final component.
-/

/-- Decimal digit characters of a natural number, most significant
first (the digits Python interpolates for `{index}`). -/
def natDigits (n : ℕ) : List Char :=
  if h : n < 10 then [Char.ofNat (48 + n)]
  else natDigits (n / 10) ++ [Char.ofNat (48 + n % 10)]
termination_by n
decreasing_by exact Nat.div_lt_self (by omega) (by norm_num)

lemma natDigits_ne_nil (n : ℕ) : natDigits n ≠ [] := by
  rw [natDigits]
  by_cases h : n < 10 <;> simp [h]

lemma natDigits_length_pos (n : ℕ) : 1 ≤ (natDigits n).length :=
  List.length_pos.mpr (natDigits_ne_nil n)

/-- `PurePath(s).name`: identical to `s` for separator-free strings,
except that `"."` and `".."` have empty name. -/
def pathNameOf (s : String) : String :=
  if s = "." then "" else if s = ".." then "" else s

/-- `(PurePath(s).stem, PurePath(s).suffix)` for separator-free `s`:
the suffix starts at the last dot when `0 < i < len(name) - 1`. -/
def pathSplit (s : String) : String × String :=
  match (pathNameOf s).toList.reverse.findIdx? (fun c => c = '.') with
  | none => (pathNameOf s, "")
  | some j =>
    if 0 < (pathNameOf s).toList.length - 1 - j ∧
        (pathNameOf s).toList.length - 1 - j < (pathNameOf s).toList.length - 1 then
      (⟨(pathNameOf s).toList.take ((pathNameOf s).toList.length - 1 - j)⟩,
       ⟨(pathNameOf s).toList.drop ((pathNameOf s).toList.length - 1 - j)⟩)
    else (pathNameOf s, "")

lemma pathSplit_length (s : String) :
    (pathSplit s).1.length + (pathSplit s).2.length = (pathNameOf s).length := by
  unfold pathSplit
  cases hfi : (pathNameOf s).toList.reverse.findIdx? (fun c => c = '.') with
  | none =>
    simp only [hfi]
    show (pathNameOf s).length + ("" : String).length = (pathNameOf s).length
    have h0 : ("" : String).length = 0 := rfl
    omega
  | some j =>
    simp only [hfi]
    by_cases hcond : 0 < (pathNameOf s).toList.length - 1 - j ∧
        (pathNameOf s).toList.length - 1 - j < (pathNameOf s).toList.length - 1
    · rw [if_pos hcond]
      show ((pathNameOf s).toList.take _).length + ((pathNameOf s).toList.drop _).length = _
      rw [List.length_take, List.length_drop]
      have hlen : (pathNameOf s).length = (pathNameOf s).toList.length := rfl
      omega
    · rw [if_neg hcond]
      show (pathNameOf s).length + ("" : String).length = (pathNameOf s).length
      have h0 : ("" : String).length = 0 := rfl
      omega

/-- The renaming step of the collision loop:
`f"{Path(name).stem}-{index}{Path(name).suffix}"`. -/
def bumpName (idx : ℕ) (name : String) : String :=
  (pathSplit name).1 ++ "-" ++ ⟨natDigits idx⟩ ++ (pathSplit name).2

lemma bumpName_length (idx : ℕ) (name : String) :
    (bumpName idx name).length =
      (pathNameOf name).length + 1 + (natDigits idx).length := by
  unfold bumpName
  rw [String.length_append, String.length_append, String.length_append]
  have h1 : ("-" : String).length = 1 := rfl
  have h2 : (⟨natDigits idx⟩ : String).length = (natDigits idx).length := rfl
  rw [h1, h2]
  have := pathSplit_length name
  omega

lemma pathNameOf_length (name : String) :
    (pathNameOf name).length = name.length ∨ name = "." ∨ name = ".." := by
  unfold pathNameOf
  by_cases h1 : name = "."
  · right; left; exact h1
  · by_cases h2 : name = ".."
    · right; right; exact h2
    · left; simp [h1, h2]

/-- The longest name in the already-seen set. -/
def seenMaxLen (seen : List String) : ℕ :=
  (seen.map String.length).foldr max 0

lemma length_le_seenMaxLen {seen : List String} {name : String}
    (h : name ∈ seen) : name.length ≤ seenMaxLen seen := by
  induction seen with
  | nil => cases h
  | cons a rest ih =>
    rcases List.mem_cons.mp h with h1 | h1
    · rw [h1]; exact le_max_left _ _
    · exact le_trans (ih h1) (le_max_right _ _)

lemma bumpName_gt_of_ne (idx : ℕ) (name : String)
    (h : name ≠ "..") : name.length < (bumpName idx name).length := by
  rw [bumpName_length]
  have hd := natDigits_length_pos idx
  rcases pathNameOf_length name with hl | hl | hl
  · omega
  · subst hl
    have h1 : (pathNameOf ".").length = 0 := rfl
    have h2 : ("." : String).length = 1 := rfl
    omega
  · exact absurd hl h

lemma bumpName_dotdot_length (idx : ℕ) :
    (bumpName idx "..").length = 1 + (natDigits idx).length := by
  rw [bumpName_length]
  have h0 : (pathNameOf "..").length = 0 := rfl
  omega

lemma bumpName_dotdot_toList (idx : ℕ) :
    (bumpName idx "..").toList = '-' :: natDigits idx := by
  show ((pathSplit "..").1 ++ "-" ++ (⟨natDigits idx⟩ : String) ++
        (pathSplit "..").2).toList = _
  have hsplit : pathSplit ".." = ("", "") := rfl
  rw [hsplit]
  show (("" ++ "-" ++ (⟨natDigits idx⟩ : String) ++ "") : String).data = _
  rw [String.append_empty, String.empty_append]
  show ("-" : String).data ++ natDigits idx = _
  rfl

lemma bumpName_dotdot_ne (idx : ℕ) : bumpName idx ".." ≠ ".." := by
  intro h
  have hdata := congrArg String.toList h
  rw [bumpName_dotdot_toList] at hdata
  have hh : ('-' : Char) = '.' := by
    have := congrArg (fun l => l.headD ' ') hdata
    simpa using this
  exact absurd hh (by decide)

/-- Termination measure for the collision loop: bumping strictly
lengthens every name except `".."` (which bumps to `"-<digits>"`). -/
def uniquifyMeasure (seen : List String) (name : String) : ℕ :=
  2 * (seenMaxLen seen + 2 - name.length) + (if name = ".." then 1 else 0)

lemma uniquifyMeasure_bump_lt (seen : List String) (idx : ℕ) (name : String)
    (h : name ∈ seen) :
    uniquifyMeasure seen (bumpName idx name) < uniquifyMeasure seen name := by
  have hmax := length_le_seenMaxLen h
  have hd := natDigits_length_pos idx
  unfold uniquifyMeasure
  by_cases hdd : name = ".."
  · subst hdd
    have hne := bumpName_dotdot_ne idx
    have hlen := bumpName_dotdot_length idx
    have h2 : (".." : String).length = 2 := rfl
    rw [if_pos rfl, if_neg hne]
    omega
  · have hgt := bumpName_gt_of_ne idx name hdd
    rw [if_neg hdd]
    by_cases hbd : bumpName idx name = ".."
    · rw [if_pos hbd]
      omega
    · rw [if_neg hbd]
      omega

/-- The `while safe_name in seen_names` loop of `create_job`. -/
def uniquify (seen : List String) (idx : ℕ) (name : String) : String :=
  if h : name ∈ seen then uniquify seen idx (bumpName idx name) else name
termination_by uniquifyMeasure seen name
decreasing_by exact uniquifyMeasure_bump_lt seen idx name h

lemma uniquify_not_mem (seen : List String) (idx : ℕ) (name : String) :
    uniquify seen idx name ∉ seen := by
  by_cases h : name ∈ seen
  · rw [uniquify, dif_pos h]
    exact uniquify_not_mem seen idx (bumpName idx name)
  · rw [uniquify, dif_neg h]
    exact h
termination_by uniquifyMeasure seen name
decreasing_by exact uniquifyMeasure_bump_lt seen idx name h

/-- The filename-assignment loop of `create_job`: for each upload
(`""` models a missing original filename), sanitize, deduplicate
against the names already taken, and record the final name. -/
def assignNamesGo (seen : List String) (idx : ℕ) : List String → List String
  | [] => []
  | v :: rest =>
    let original := if v = "" then "video-" ++ (⟨natDigits idx⟩ : String) ++ ".mp4" else v
    let finalName := uniquify seen idx (safeFilename original)
    finalName :: assignNamesGo (finalName :: seen) (idx + 1) rest

/-- The `input_name`s `create_job` gives a job's videos, in upload order. -/
def assignVideoNames (uploads : List String) : List String :=
  assignNamesGo [] 1 uploads

lemma assignNamesGo_nodup (uploads : List String) :
    ∀ seen idx, (assignNamesGo seen idx uploads).Nodup ∧
      ∀ n ∈ assignNamesGo seen idx uploads, n ∉ seen := by
  induction uploads with
  | nil => intro seen idx; exact ⟨List.nodup_nil, by intro n hn; cases hn⟩
  | cons v rest ih =>
    intro seen idx
    simp only [assignNamesGo]
    set original := if v = "" then "video-" ++ (⟨natDigits idx⟩ : String) ++ ".mp4" else v with horig
    set finalName := uniquify seen idx (safeFilename original) with hfinal
    obtain ⟨hnd, hmem⟩ := ih (finalName :: seen) (idx + 1)
    constructor
    · refine List.nodup_cons.mpr ⟨?_, hnd⟩
      intro hcontra
      exact (hmem finalName hcontra) (List.mem_cons_self _ _)
    · intro n hn hnseen
      rcases List.mem_cons.mp hn with h1 | h1
      · rw [h1] at hnseen
        exact uniquify_not_mem seen idx (safeFilename original) hnseen
      · exact (hmem n h1) (List.mem_cons_of_mem _ hnseen)

/-- **C10.** After job creation from any list of uploads — including
uploads sharing the same original filename — the sanitized
`input_name`s of the created job's videos are pairwise distinct. -/
theorem assignVideoNames_nodup (uploads : List String) :
    (assignVideoNames uploads).Nodup :=
  (assignNamesGo_nodup uploads [] 1).1

/-! ## The durable queue and worker loop

`_enqueue_job` guards a FIFO queue (`JOB_QUEUE`) with the in-flight set
`ENQUEUED_JOBS`; `_queue_worker_loop` dequeues, processes, and in its
`finally` clause discards the id from the in-flight set regardless of
the processing outcome.  A job id is *queued* while it sits in the
queue and *running* between dequeue and the `finally` discard; in both
phases it is a member of the in-flight set.
-/

structure QueueState where
  enqueuedJobs : Finset String
  jobQueue : List String
deriving DecidableEq

/-- `_enqueue_job`. -/
def enqueueJob (s : QueueState) (jobId : String) : QueueState :=
  if jobId ∈ s.enqueuedJobs then s
  else { enqueuedJobs := insert jobId s.enqueuedJobs,
         jobQueue := s.jobQueue ++ [jobId] }

/-- Worker loop, dequeue phase (`JOB_QUEUE.get()`): pops the queue
head, which then becomes the running job; the in-flight set is
untouched until the `finally` clause. -/
def workerBegin (s : QueueState) : Option (String × QueueState) :=
  match s.jobQueue with
  | [] => none
  | jobId :: rest => some (jobId, { s with jobQueue := rest })

/-- Worker loop, `finally` clause: `ENQUEUED_JOBS.discard(job_id)` runs
whether `_process_job` returned or raised. -/
def workerFinish (s : QueueState) (jobId : String) : QueueState :=
  { s with enqueuedJobs := s.enqueuedJobs.erase jobId }

/-- Queue sanity invariant maintained by the engine: the queue holds
any id at most once, and anything queued is in the in-flight set. -/
def QueueInv (s : QueueState) : Prop :=
  ∀ jobId : String, s.jobQueue.count jobId ≤ 1 ∧
    (jobId ∈ s.jobQueue → jobId ∈ s.enqueuedJobs)

lemma enqueueJob_mem_noop (s : QueueState) (jobId : String)
    (h : jobId ∈ s.enqueuedJobs) : enqueueJob s jobId = s := by
  unfold enqueueJob
  rw [if_pos h]

lemma enqueueJob_preserves_inv (s : QueueState) (jobId : String)
    (hinv : QueueInv s) : QueueInv (enqueueJob s jobId) := by
  unfold enqueueJob
  by_cases h : jobId ∈ s.enqueuedJobs
  · rw [if_pos h]; exact hinv
  · rw [if_neg h]
    intro x
    obtain ⟨hc, hm⟩ := hinv x
    constructor
    · show (s.jobQueue ++ [jobId]).count x ≤ 1
      rw [List.count_append]
      by_cases hx : x = jobId
      · subst hx
        have hnotq : x ∉ s.jobQueue := fun hq => h ((hinv x).2 hq)
        rw [List.count_eq_zero.mpr hnotq]
        simp [List.count_singleton]
      · have : ([jobId] : List String).count x = 0 :=
          List.count_eq_zero.mpr (by simp [hx])
        omega
    · intro hx
      show x ∈ insert jobId s.enqueuedJobs
      rcases List.mem_append.mp hx with h1 | h1
      · exact Finset.mem_insert_of_mem (hm h1)
      · simp at h1
        subst h1
        exact Finset.mem_insert_self _ _

lemma workerBegin_preserves_inv (s : QueueState) (jobId : String)
    (s' : QueueState) (h : workerBegin s = some (jobId, s'))
    (hinv : QueueInv s) : QueueInv s' := by
  unfold workerBegin at h
  cases hq : s.jobQueue with
  | nil => rw [hq] at h; cases h
  | cons a rest =>
    rw [hq] at h
    injection h with h1
    injection h1 with ha hs
    subst hs
    intro x
    obtain ⟨hc, hm⟩ := hinv x
    rw [hq] at hc hm
    constructor
    · show rest.count x ≤ 1
      rw [List.count_cons] at hc
      omega
    · intro hx
      exact hm (List.mem_cons_of_mem _ hx)

/-- **C4.** Enqueue is idempotent while a job is in flight, the queue
never holds an id twice (one processing pass), and the `finally`
discard makes a later re-enqueue of the same id be accepted again. -/
theorem enqueue_idempotent_and_refire (s : QueueState) (jobId : String)
    (hinv : QueueInv s) :
    (jobId ∈ s.enqueuedJobs → enqueueJob s jobId = s) ∧
    (enqueueJob (enqueueJob s jobId) jobId = enqueueJob s jobId) ∧
    ((enqueueJob s jobId).jobQueue.count jobId ≤ 1) ∧
    (jobId ∉ (workerFinish s jobId).enqueuedJobs) ∧
    (jobId ∉ s.jobQueue →
      (enqueueJob (workerFinish s jobId) jobId).jobQueue =
        s.jobQueue ++ [jobId]) := by
  refine ⟨enqueueJob_mem_noop s jobId, ?_, ?_, ?_, ?_⟩
  · by_cases h : jobId ∈ s.enqueuedJobs
    · rw [enqueueJob_mem_noop s jobId h, enqueueJob_mem_noop s jobId h]
    · apply enqueueJob_mem_noop
      unfold enqueueJob
      rw [if_neg h]
      exact Finset.mem_insert_self _ _
  · exact ((enqueueJob_preserves_inv s jobId hinv) jobId).1
  · exact Finset.not_mem_erase _ _
  · intro hq
    unfold workerFinish enqueueJob
    rw [if_neg (Finset.not_mem_erase _ _)]

/-- **C4 witness**: a concrete two-element state satisfying the
invariant, evaluated through the theorem. -/
theorem enqueue_idempotent_and_refire_witness :
    (("j1" : String) ∈ (QueueState.mk {"j1"} ["j1"]).enqueuedJobs →
      enqueueJob (QueueState.mk {"j1"} ["j1"]) "j1" = QueueState.mk {"j1"} ["j1"]) ∧
    (enqueueJob (enqueueJob (QueueState.mk {"j1"} ["j1"]) "j1") "j1" =
      enqueueJob (QueueState.mk {"j1"} ["j1"]) "j1") ∧
    ((enqueueJob (QueueState.mk {"j1"} ["j1"]) "j1").jobQueue.count "j1" ≤ 1) ∧
    (("j1" : String) ∉ (workerFinish (QueueState.mk {"j1"} ["j1"]) "j1").enqueuedJobs) ∧
    (("j1" : String) ∉ (QueueState.mk {"j1"} ["j1"]).jobQueue →
      (enqueueJob (workerFinish (QueueState.mk {"j1"} ["j1"]) "j1") "j1").jobQueue =
        (QueueState.mk {"j1"} ["j1"]).jobQueue ++ ["j1"]) :=
  enqueue_idempotent_and_refire (QueueState.mk {"j1"} ["j1"]) "j1"
    (by
      intro x
      refine ⟨?_, ?_⟩
      · simp only [List.count_singleton']
        split <;> omega
      · intro hx
        simp only [List.mem_singleton] at hx
        simp [hx])

/-! ## Console-line normalization and decimal rounding

`_normalize_console_line` removes ANSI escape sequences and strips the
result; call sites additionally lowercase it.  Python `round(x, n)`
is modelled as exact decimal round-half-to-even on rationals.
-/

/-- Match one ANSI escape body after the ESC byte: a `[`, any run of
parameter bytes 0x30-0x3F, any run of intermediate bytes 0x20-0x2F,
then one final byte 0x40-0x7E; returns the remaining characters.  The
three byte classes are disjoint, so greedy scanning is exact. -/
def matchAnsiTail (l : List Char) : Option (List Char) :=
  match l with
  | '[' :: rest =>
    let r1 := rest.dropWhile fun c => decide ('0' ≤ c) && decide (c ≤ '?')
    let r2 := r1.dropWhile fun c => decide (' ' ≤ c) && decide (c ≤ '/')
    match r2 with
    | f :: r3 => if '@' ≤ f ∧ f ≤ '~' then some r3 else none
    | [] => none
  | _ => none

/-- ANSI escape removal, with explicit fuel; every step consumes at
least one character, so fuel `l.length` reproduces the regex
substitution exactly. -/
def stripAnsiFuel : ℕ → List Char → List Char
  | 0, l => l
  | _ + 1, [] => []
  | fuel + 1, c :: rest =>
    if c = Char.ofNat 27 then
      match matchAnsiTail rest with
      | some rest2 => stripAnsiFuel fuel rest2
      | none => c :: stripAnsiFuel fuel rest
    else c :: stripAnsiFuel fuel rest

def stripAnsi (l : List Char) : List Char := stripAnsiFuel l.length l

/-- `_normalize_console_line`. -/
def normalizeConsoleLine (value : String) : String :=
  pyStrip ⟨stripAnsi value.toList⟩

/-- Round a rational to the nearest integer, ties to even —
Python `round`. -/
def roundHalfEven (q : ℚ) : ℤ :=
  let fl := ⌊q⌋
  if q - fl < 1/2 then fl
  else if 1/2 < q - fl then fl + 1
  else if fl % 2 = 0 then fl else fl + 1

/-- Python `round(q, ndigits)` as exact decimal rounding. -/
def pyRound (q : ℚ) (ndigits : ℕ) : ℚ :=
  (roundHalfEven (q * (10 : ℚ) ^ ndigits) : ℚ) / (10 : ℚ) ^ ndigits

/-! ## The per-task profile-fallback walk (`_process_job` inner loop)

For one task, `_process_job` walks the candidate profile list: the
renderer is invoked per candidate; a failing invocation whose
normalized output mentions the map-tile signature triggers — at most
once per task — a maps-disabled retry of the same candidate; a zero
exit code ends the walk successfully; a failure matching the
non-recoverable signature stops the walk without trying the remaining
candidates.  The render oracle maps the invocation ordinal (within the
task) to the subprocess outcome.
-/

structure RenderOutcome where
  code : ℤ
  lastLine : String
  elapsed : ℚ
deriving DecidableEq, Repr

/-- The renderer failure line that identifies a map-tile failure. -/
def mapFailureSig : String := "images do not match"

/-- The non-recoverable "incompatible input" failure signature:
the renderer message about GPX/video time ranges. -/
def overlapSig : String := "don" ++ apos ++ "t overlap in time"

structure WalkState where
  invocations : List (String × Bool)
  mapsEnabled : Bool
  mapFallbackUsed : Bool
  lastError : Option String
  elapsed : ℚ
deriving DecidableEq, Repr

structure WalkResult where
  success : Bool
  finalProfile : String
  st : WalkState
deriving DecidableEq, Repr

/-- Classify a failed attempt's normalized output into the retained
error text (`last_error` in the source). -/
def classifyError (nl : String) (code : ℤ) (profileId : String) : String :=
  if nl ≠ "" ∧ (strContains nl "error" = true ∨ strContains nl "exception" = true)
  then nl
  else "Renderer exited with code " ++ toString code ++ " using profile " ++ profileId

/-- Post-invocation handling shared by the plain attempt and the
maps-disabled retry: success breaks the walk, a non-recoverable
signature stops it, anything else walks on to the remaining
candidates via `walkRest`. -/
def walkStep (walkRest : WalkState → WalkResult)
    (profileId : String) (r : RenderOutcome) (nl : String)
    (st : WalkState) : WalkResult :=
  if r.code = 0 then { success := true, finalProfile := profileId, st := st }
  else
    let st' := { st with lastError := some (classifyError nl r.code profileId) }
    if strContains nl overlapSig = true then
      { success := false, finalProfile := profileId, st := st' }
    else walkRest st'

/-- One candidate attempt: invoke the renderer, and — when the attempt
failed with the map-tile signature while maps were on and the fallback
is still unused — disable maps and re-invoke the same candidate once.
Returns the outcome classification then runs on, and the state with
the invocation(s) logged and the elapsed time accumulated. -/
def walkOne (render : ℕ → RenderOutcome) (profileId : String)
    (st : WalkState) : RenderOutcome × WalkState :=
  let r := render st.invocations.length
  let st1 : WalkState := { st with
    invocations := st.invocations ++ [(profileId, st.mapsEnabled)],
    elapsed := st.elapsed + r.elapsed }
  if r.code ≠ 0 ∧ st1.mapsEnabled = true ∧ st1.mapFallbackUsed = false ∧
      strContains (pyLower (normalizeConsoleLine r.lastLine)) mapFailureSig = true then
    let st2 : WalkState := { st1 with mapsEnabled := false, mapFallbackUsed := true }
    let r2 := render st2.invocations.length
    let st3 : WalkState := { st2 with
      invocations := st2.invocations ++ [(profileId, false)],
      elapsed := st2.elapsed + r2.elapsed }
    (r2, st3)
  else (r, st1)

def walkProfiles (render : ℕ → RenderOutcome) :
    List String → String → WalkState → WalkResult
  | [], attempted, st => { success := false, finalProfile := attempted, st := st }
  | profileId :: rest, _, st =>
    let p := walkOne render profileId st
    walkStep (walkProfiles render rest profileId) profileId p.1
      (pyLower (normalizeConsoleLine p.1.lastLine)) p.2

/-! ## Job and task model, recovery, and `_process_job`

The job document as the engine reads and writes it, restricted to the
fields the orchestration logic touches.  External collaborators
(ffprobe, renderer subprocess, object storage) are oracles indexed by
video position; `gpxOk` models whether `shift_gpx_timestamps` raised.
-/

inductive TaskStatus
  | queued
  | running
  | completed
  | failed
deriving DecidableEq, Repr

inductive JobStatus
  | queued
  | running
  | completed
  | completedWithErrors
  | failed
deriving DecidableEq, Repr

def terminalJobStatuses : List JobStatus :=
  [.completed, .completedWithErrors, .failed]

structure VideoState where
  inputName : String
  status : TaskStatus
  progress : ℤ
  detail : String
  error : Option String
  renderProfile : Option String
deriving DecidableEq, Repr

structure JobSettings where
  renderProfile : String
  includeMaps : Bool
  fpsMode : String
  fixedFps : ℚ
deriving DecidableEq, Repr

structure Job where
  status : JobStatus
  videos : List VideoState
  settings : JobSettings
  message : String
  progress : ℤ
  jobDirOk : Bool
deriving DecidableEq, Repr

structure VideoMetadata where
  width : ℤ
  height : ℤ
  duration : Option ℚ
deriving DecidableEq, Repr

/-- One line of the append-only render-sample history
(`_record_render_sample`), restricted to the fields the calibration
engine reads.  `Option` marks fields that can be absent or `None`. -/
structure RenderSampleRec where
  success : Bool
  renderProfile : String
  mapsEnabled : Bool
  fpsMode : String
  fixedFps : Option ℚ
  sourceWidth : ℤ
  sourceHeight : ℤ
  sourceDurationSeconds : Option ℚ
  renderElapsedSeconds : Option ℚ
  error : Option String
deriving DecidableEq, Repr

structure ProcessEnv where
  gpxOk : Bool
  probe : ℕ → Option VideoMetadata
  render : ℕ → ℕ → RenderOutcome
  uploadOk : ℕ → Bool
  platformDarwin : Bool
  manualProfiles : List String
  defaultProfile : String

/-- `_auto_render_profile_candidates`. -/
def autoRenderProfileCandidates (darwin : Bool) (m : VideoMetadata) :
    List String :=
  let highResolution := m.width > 3840 ∨ m.height > 2160
  if darwin then
    if highResolution then
      ["qt-hevc-balanced", "h264-4k-compat", "h264-source", "h264-fast"]
    else ["h264-source", "qt-hevc-balanced", "h264-fast"]
  else
    if highResolution then ["h264-source", "h264-4k-compat", "h264-fast"]
    else ["h264-source", "h264-fast"]

/-- `_select_render_profile`. -/
def selectRenderProfile (env : ProcessEnv) (m : VideoMetadata)
    (requested : String) : String × List String :=
  if requested ≠ "auto" then (requested, [requested])
  else
    let c0 := (autoRenderProfileCandidates env.platformDarwin m).filter
      (fun p => decide (p ∈ env.manualProfiles))
    let c := if c0.isEmpty then [env.defaultProfile] else c0
    (c.headD env.defaultProfile, c)

/-- `_recover_pending_jobs`, per job with stored status queued or
running: missing artifacts mark the job failed without enqueueing;
a running job is reset to queued with only its *running* tasks reset;
the returned flag says whether the job id was enqueued. -/
def recoverPendingJob (job : Job) : Job × Bool :=
  if job.jobDirOk = false then
    ({ job with
        status := .failed
        progress := 100
        message := "Job artifacts are missing on disk after restart" }, false)
  else if job.status = .running then
    ({ job with
        status := .queued
        message := "Resuming after API restart"
        videos := job.videos.map fun v =>
          if v.status = .running then
            { v with status := .queued, detail := "Queued after API restart" }
          else v }, true)
  else (job, true)

def initWalkState (includeMaps : Bool) : WalkState :=
  { invocations := [], mapsEnabled := includeMaps, mapFallbackUsed := false,
    lastError := none, elapsed := 0 }

/-- The render-sample document appended after a task's walk reaches a
terminal render outcome (elapsed accumulated over every attempt, then
rounded to 3 decimals as in the source). -/
def mkRenderSample (success : Bool) (profileId : String) (st : WalkState)
    (m : VideoMetadata) (settings : JobSettings) (err : Option String) :
    RenderSampleRec :=
  { success := success, renderProfile := profileId,
    mapsEnabled := st.mapsEnabled, fpsMode := settings.fpsMode,
    fixedFps := some settings.fixedFps,
    sourceWidth := m.width, sourceHeight := m.height,
    sourceDurationSeconds := m.duration,
    renderElapsedSeconds := some (pyRound st.elapsed 3),
    error := err }

structure VideoOutcome where
  video : VideoState
  samples : List RenderSampleRec
  invocations : List (String × Bool)
deriving DecidableEq, Repr

/-- One iteration of the `for index, video_state in enumerate(...)`
loop of `_process_job`: probe, walk the profile candidates, then on
success upload and mark completed (recording a success sample), and on
walk failure mark failed (recording a failure sample).  A raising
probe or upload takes the `except` branch: the task is failed and no
sample is recorded.  Exception texts are abstracted to fixed strings. -/
def processVideo (env : ProcessEnv) (settings : JobSettings) (index : ℕ)
    (v : VideoState) : VideoOutcome :=
  match env.probe index with
  | none =>
    { video := { v with
        status := .failed
        progress := 0
        error := some "ffprobe failed"
        detail := "Render/upload failed" },
      samples := [], invocations := [] }
  | some metadata =>
    let sel := selectRenderProfile env metadata settings.renderProfile
    let w := walkProfiles (env.render index) sel.2 sel.1
      (initWalkState settings.includeMaps)
    if w.success = true then
      if env.uploadOk index = true then
        { video := { v with
            status := .completed
            progress := 100
            error := none
            renderProfile := some w.finalProfile },
          samples := [mkRenderSample true w.finalProfile w.st metadata settings none],
          invocations := w.st.invocations }
      else
        { video := { v with
            status := .failed
            progress := 0
            error := some "upload failed"
            detail := "Render/upload failed" },
          samples := [], invocations := w.st.invocations }
    else
      { video := { v with
          status := .failed
          progress := 0
          error := some (w.st.lastError.getD "Renderer exited with code 1")
          renderProfile := some w.finalProfile },
        samples := [mkRenderSample false w.finalProfile w.st metadata settings
          (some (w.st.lastError.getD "Renderer exited with code 1"))],
        invocations := w.st.invocations }

structure ProcessResult where
  job : Job
  samples : List RenderSampleRec
  renderTrace : List (ℕ × String × Bool)
deriving DecidableEq, Repr

/-- The `for index, video_state in enumerate(job["videos"])` loop:
every video of the job is processed — there is no status check that
would skip already-completed tasks. -/
def processedOutcomes (env : ProcessEnv) (job : Job) :
    List (ℕ × VideoOutcome) :=
  job.videos.enum.map fun p => (p.1, processVideo env job.settings p.1 p.2)

def processedVideos (env : ProcessEnv) (job : Job) : List VideoState :=
  (processedOutcomes env job).map fun p => p.2.video

/-- Final job-status aggregation from `failed_count` and the task
total, with the messages the source writes. -/
def finalizeJob (job : Job) (videos' : List VideoState) : Job :=
  let failedCount := videos'.countP fun v => decide (v.status = .failed)
  let total := job.videos.length
  if failedCount = 0 then
    { job with
      status := .completed
      progress := 100
      message := "All videos rendered"
      videos := videos' }
  else if failedCount < total then
    { job with
      status := .completedWithErrors
      progress := 100
      message := "Rendered with " ++ toString failedCount ++ " failure(s)"
      videos := videos' }
  else
    { job with
      status := .failed
      progress := 100
      message := "Rendering failed"
      videos := videos' }

/-- `_process_job`: early-return on terminal status, fail the job when
GPX preparation raises, otherwise process every video in order and
aggregate the final job status from `failed_count`.  `renderTrace`
records every renderer invocation as (video index, profile, maps). -/
def processJob (env : ProcessEnv) (job : Job) : ProcessResult :=
  if job.status ∈ terminalJobStatuses then ⟨job, [], []⟩
  else if env.gpxOk = false then
    ⟨{ job with
        status := .failed
        progress := 100
        message := "GPX preparation failed" }, [], []⟩
  else
    ⟨finalizeJob job (processedVideos env job),
     ((processedOutcomes env job).map fun p => p.2.samples).join,
     ((processedOutcomes env job).map fun p =>
        p.2.invocations.map fun pb => (p.1, pb.1, pb.2)).join⟩

/-- `_record_render_sample`: append one line to the sample history. -/
def recordRenderSample (history : List RenderSampleRec)
    (s : RenderSampleRec) : List RenderSampleRec :=
  history ++ [s]

/-- A full processing pass threaded through the sample history file. -/
def runJobWithHistory (history : List RenderSampleRec) (env : ProcessEnv)
    (job : Job) : List RenderSampleRec × ProcessResult :=
  let r := processJob env job
  (r.samples.foldl recordRenderSample history, r)

/-! ## Claims about recovery, re-processing, sampling and aggregation -/

lemma processJob_eq (env : ProcessEnv) (job : Job)
    (hterm : job.status ∉ terminalJobStatuses) (hgpx : env.gpxOk = true) :
    processJob env job =
      ⟨finalizeJob job (processedVideos env job),
       ((processedOutcomes env job).map fun p => p.2.samples).join,
       ((processedOutcomes env job).map fun p =>
          p.2.invocations.map fun pb => (p.1, pb.1, pb.2)).join⟩ := by
  unfold processJob
  rw [if_neg hterm, if_neg (by simp [hgpx])]

lemma processVideo_status (env : ProcessEnv) (settings : JobSettings)
    (index : ℕ) (v : VideoState) :
    (processVideo env settings index v).video.status = .completed ∨
    (processVideo env settings index v).video.status = .failed := by
  unfold processVideo
  cases env.probe index with
  | none => right; rfl
  | some m =>
    dsimp only
    split_ifs
    · left; rfl
    · right; rfl
    · right; rfl

lemma processedVideos_mem (env : ProcessEnv) (job : Job) (v : VideoState)
    (hv : v ∈ processedVideos env job) :
    ∃ i x, v = (processVideo env job.settings i x).video := by
  unfold processedVideos processedOutcomes at hv
  rcases List.mem_map.mp hv with ⟨p, hp, rfl⟩
  rcases List.mem_map.mp hp with ⟨q, _, rfl⟩
  exact ⟨q.1, q.2, rfl⟩

lemma processedVideos_length (env : ProcessEnv) (job : Job) :
    (processedVideos env job).length = job.videos.length := by
  unfold processedVideos processedOutcomes
  rw [List.length_map, List.length_map, List.enum_length]

lemma finalizeJob_videos (job : Job) (vs : List VideoState) :
    (finalizeJob job vs).videos = vs := by
  unfold finalizeJob
  dsimp only
  split_ifs <;> rfl

lemma finalizeJob_status (job : Job) (vs : List VideoState) :
    (finalizeJob job vs).status =
      (if vs.countP (fun v => decide (v.status = .failed)) = 0 then .completed
       else if vs.countP (fun v => decide (v.status = .failed)) <
          job.videos.length then .completedWithErrors
       else .failed) := by
  unfold finalizeJob
  dsimp only
  split_ifs <;> rfl

/-- **C3.** For every job with at least one task, once `_process_job`
has driven every task to a terminal state the job status is a pure
function of the task statuses: all completed → `completed`; all failed
→ `failed`; a mix → `completed_with_errors`. -/
theorem processJob_status_aggregation (env : ProcessEnv) (job : Job)
    (hgpx : env.gpxOk = true) (hterm : job.status ∉ terminalJobStatuses)
    (hne : job.videos ≠ []) :
    (∀ v ∈ (processJob env job).job.videos,
        v.status = .completed ∨ v.status = .failed) ∧
    ((∀ v ∈ (processJob env job).job.videos, v.status = .completed) →
        (processJob env job).job.status = .completed) ∧
    ((∀ v ∈ (processJob env job).job.videos, v.status = .failed) →
        (processJob env job).job.status = .failed) ∧
    (((∃ v ∈ (processJob env job).job.videos, v.status = .completed) ∧
      (∃ v ∈ (processJob env job).job.videos, v.status = .failed)) →
        (processJob env job).job.status = .completedWithErrors) := by
  rw [processJob_eq env job hterm hgpx]
  show (∀ v ∈ (finalizeJob job (processedVideos env job)).videos, _) ∧ _
  rw [finalizeJob_videos, finalizeJob_status]
  have hlen := processedVideos_length env job
  have htotal : 0 < job.videos.length := List.length_pos.mpr hne
  refine ⟨?_, ?_, ?_, ?_⟩
  · intro v hv
    rcases processedVideos_mem env job v hv with ⟨i, x, rfl⟩
    exact processVideo_status env job.settings i x
  · intro hall
    have hzero : (processedVideos env job).countP
        (fun v => decide (v.status = .failed)) = 0 := by
      apply List.countP_eq_zero.mpr
      intro a ha
      rw [hall a ha]
      decide
    rw [if_pos hzero]
  · intro hall
    have hfull : (processedVideos env job).countP
        (fun v => decide (v.status = .failed)) =
        (processedVideos env job).length := by
      apply List.countP_eq_length.mpr
      intro a ha
      rw [hall a ha]
      decide
    rw [hfull, hlen, if_neg (by omega), if_neg (by omega)]
  · rintro ⟨⟨vc, hvc, hvcs⟩, ⟨vf, hvf, hvfs⟩⟩
    have hpos : 0 < (processedVideos env job).countP
        (fun v => decide (v.status = .failed)) := by
      apply List.countP_pos.mpr
      exact ⟨vf, hvf, by rw [hvfs]; decide⟩
    have hlt : (processedVideos env job).countP
        (fun v => decide (v.status = .failed)) <
        (processedVideos env job).length := by
      have hle : (processedVideos env job).countP
          (fun v => decide (v.status = .failed)) ≤
          (processedVideos env job).length :=
        List.countP_le_length _
      rcases lt_or_eq_of_le hle with h | h
      · exact h
      · exfalso
        have := List.countP_eq_length.mp h vc hvc
        rw [hvcs] at this
        exact absurd this (by decide)
    rw [if_neg (by omega), if_pos (by omega)]

/-- **C3 witness**: one completed and one failed task give
`completed_with_errors`; a lone successful task gives `completed`. -/
theorem processJob_status_aggregation_witness :
    (∀ v ∈ (processJob (ProcessEnv.mk true (fun _ => some ⟨1920, 1080, some 10⟩)
        (fun i _ => if i = 0 then ⟨0, "[100%]", 1⟩ else ⟨1, "boom", 1⟩)
        (fun _ => true) false ["h264-source", "h264-fast"] "h264-source")
        (Job.mk .queued
          [⟨"a.mp4", .queued, 0, "Queued", none, none⟩,
           ⟨"b.mp4", .queued, 0, "Queued", none, none⟩]
          ⟨"h264-fast", false, "source_exact", 30⟩ "Queued" 0 true)).job.videos,
        v.status = .completed ∨ v.status = .failed) ∧
    (processJob (ProcessEnv.mk true (fun _ => some ⟨1920, 1080, some 10⟩)
        (fun i _ => if i = 0 then ⟨0, "[100%]", 1⟩ else ⟨1, "boom", 1⟩)
        (fun _ => true) false ["h264-source", "h264-fast"] "h264-source")
        (Job.mk .queued
          [⟨"a.mp4", .queued, 0, "Queued", none, none⟩,
           ⟨"b.mp4", .queued, 0, "Queued", none, none⟩]
          ⟨"h264-fast", false, "source_exact", 30⟩ "Queued" 0 true)).job.status =
      .completedWithErrors := by
  have h := processJob_status_aggregation
    (ProcessEnv.mk true (fun _ => some ⟨1920, 1080, some 10⟩)
      (fun i _ => if i = 0 then ⟨0, "[100%]", 1⟩ else ⟨1, "boom", 1⟩)
      (fun _ => true) false ["h264-source", "h264-fast"] "h264-source")
    (Job.mk .queued
      [⟨"a.mp4", .queued, 0, "Queued", none, none⟩,
       ⟨"b.mp4", .queued, 0, "Queued", none, none⟩]
      ⟨"h264-fast", false, "source_exact", 30⟩ "Queued" 0 true)
    (by decide) (by decide) (by decide)
  exact ⟨h.1, h.2.2.2 (by decide)⟩

/-! Concrete recovery/resume scenario (the spec's "Resume skips
completed work", and the repo's own
`test_process_job_resume_skips_already_completed_videos`):
a job recovered with T1 = completed, T2 = running. -/

def resumeSettings : JobSettings :=
  { renderProfile := "h264-fast", includeMaps := false,
    fpsMode := "source_exact", fixedFps := 30 }

def resumeJob : Job :=
  { status := .running,
    videos :=
      [{ inputName := "already-done.mp4", status := .completed, progress := 100,
         detail := "", error := none, renderProfile := some "h264-fast" },
       { inputName := "pending.mp4", status := .running, progress := 50,
         detail := "", error := none, renderProfile := none }],
    settings := resumeSettings, message := "Rendering", progress := 50,
    jobDirOk := true }

def resumeEnv : ProcessEnv :=
  { gpxOk := true, probe := fun _ => some ⟨1920, 1080, some 10⟩,
    render := fun _ _ => ⟨0, "[100%]", 1⟩, uploadOk := fun _ => true,
    platformDarwin := false,
    manualProfiles := ["h264-source", "h264-fast"],
    defaultProfile := "h264-source" }

/-- **C1** (evaluation at the failing input).  Recovery does reset only
the running task to queued and leaves the completed task untouched —
but the subsequent processing pass invokes the renderer for *both*
tasks: the video loop of `_process_job` has no check that skips
already-completed tasks, so the renderer trace is `[0, 1]`, not `[1]`
as the claim (and the repository's own resume test) requires. -/
theorem processJob_rerenders_completed_task :
    ((recoverPendingJob resumeJob).1.videos.map (fun v => v.status) =
      [.completed, .queued]) ∧
    ((processJob resumeEnv (recoverPendingJob resumeJob).1).renderTrace.map
      (fun t => t.1) = [0, 1]) ∧
    ¬ ((processJob resumeEnv (recoverPendingJob resumeJob).1).renderTrace.map
      (fun t => t.1) = [1]) := by
  refine ⟨by decide, by decide, by decide⟩

/-! Render-sample cardinality: the source records one sample per task
that reaches a terminal render outcome, not one per attempt. -/

def twoAttemptJob : Job :=
  { status := .queued,
    videos := [{ inputName := "ride.mp4", status := .queued, progress := 0,
                 detail := "Queued", error := none, renderProfile := none }],
    settings := { renderProfile := "auto", includeMaps := false,
                  fpsMode := "source_exact", fixedFps := 30 },
    message := "Queued", progress := 0, jobDirOk := true }

def twoAttemptEnv : ProcessEnv :=
  { gpxOk := true, probe := fun _ => some ⟨1920, 1080, some 10⟩,
    render := fun _ _ => ⟨1, "renderer blew up", 2⟩, uploadOk := fun _ => true,
    platformDarwin := false,
    manualProfiles := ["h264-source", "h264-fast"],
    defaultProfile := "h264-source" }

/-- **C2 counterexample.**  An `auto` task walks two candidate
profiles, both failing with a generic error: two completed render
attempts, yet exactly one sample is appended — refuting "one appended
sample per attempt". -/
theorem renderSample_per_attempt_counterexample :
    ((processJob twoAttemptEnv twoAttemptJob).renderTrace.length = 2) ∧
    ((processJob twoAttemptEnv twoAttemptJob).samples.length = 1) ∧
    ¬ ((processJob twoAttemptEnv twoAttemptJob).samples.length =
        (processJob twoAttemptEnv twoAttemptJob).renderTrace.length) := by
  refine ⟨by decide, by decide, by decide⟩

lemma foldl_recordRenderSample (l : List RenderSampleRec) :
    ∀ history : List RenderSampleRec,
      l.foldl recordRenderSample history = history ++ l := by
  induction l with
  | nil => intro history; simp
  | cons a rest ih =>
    intro history
    show rest.foldl recordRenderSample (recordRenderSample history a) = _
    rw [ih (recordRenderSample history a)]
    unfold recordRenderSample
    simp

/-! ## Map fallback and non-recoverable short-circuit (walk lemmas) -/

/-- `walkStep` takes one of three branches: success, stop on the
non-recoverable signature, or continuation. -/
lemma walkStep_cases (wr : WalkState → WalkResult) (p : String)
    (r : RenderOutcome) (nl : String) (st : WalkState) :
    (r.code = 0 ∧ walkStep wr p r nl st = ⟨true, p, st⟩) ∨
    (r.code ≠ 0 ∧ strContains nl overlapSig = true ∧
      walkStep wr p r nl st =
        ⟨false, p, WalkState.mk st.invocations st.mapsEnabled
          st.mapFallbackUsed (some (classifyError nl r.code p)) st.elapsed⟩) ∨
    (r.code ≠ 0 ∧ strContains nl overlapSig = false ∧
      walkStep wr p r nl st =
        wr (WalkState.mk st.invocations st.mapsEnabled
          st.mapFallbackUsed (some (classifyError nl r.code p)) st.elapsed)) := by
  unfold walkStep
  by_cases h0 : r.code = 0
  · left; exact ⟨h0, by rw [if_pos h0]⟩
  · right
    by_cases hov : strContains nl overlapSig = true
    · left
      exact ⟨h0, hov, by rw [if_neg h0, if_pos hov]⟩
    · right
      refine ⟨h0, by simpa using hov, ?_⟩
      rw [if_neg h0, if_neg hov]

/-- `walkOne` either logs a single attempt leaving the maps/fallback
flags unchanged, or — only when the fallback was still unused — logs
the attempt plus the maps-disabled retry, setting the fallback flag. -/
lemma walkOne_state_cases (render : ℕ → RenderOutcome) (c : String)
    (st : WalkState) :
    ((walkOne render c st).2 = { st with
        invocations := st.invocations ++ [(c, st.mapsEnabled)],
        elapsed := st.elapsed + (render st.invocations.length).elapsed }) ∨
    (st.mapFallbackUsed = false ∧ st.mapsEnabled = true ∧
      (walkOne render c st).2 = {
        invocations := st.invocations ++ [(c, st.mapsEnabled), (c, false)],
        mapsEnabled := false, mapFallbackUsed := true,
        lastError := st.lastError,
        elapsed := st.elapsed + (render st.invocations.length).elapsed +
          (render (st.invocations ++ [(c, st.mapsEnabled)]).length).elapsed }) := by
  simp only [walkOne]
  split_ifs with hc
  · right
    refine ⟨hc.2.2.1, hc.2.1, ?_⟩
    show WalkState.mk ((st.invocations ++ [(c, st.mapsEnabled)]) ++ [(c, false)])
      false true st.lastError _ = _
    rw [List.append_assoc]
    rfl
  · left
    rfl

lemma walkOne_len_flag (render : ℕ → RenderOutcome) (c : String)
    (st : WalkState) :
    ((walkOne render c st).2.invocations.length = st.invocations.length + 1 ∧
      (walkOne render c st).2.mapFallbackUsed = st.mapFallbackUsed) ∨
    (st.mapFallbackUsed = false ∧
      (walkOne render c st).2.invocations.length = st.invocations.length + 2 ∧
      (walkOne render c st).2.mapFallbackUsed = true) := by
  rcases walkOne_state_cases render c st with h | ⟨hflag, _, h⟩
  · left
    rw [h]
    exact ⟨by simp, rfl⟩
  · right
    rw [h]
    exact ⟨hflag, by simp, rfl⟩

lemma walkOne_inv_extend (render : ℕ → RenderOutcome) (c : String)
    (st : WalkState) :
    ∃ t, (walkOne render c st).2.invocations = st.invocations ++ t := by
  rcases walkOne_state_cases render c st with h | ⟨_, _, h⟩
  · exact ⟨[(c, st.mapsEnabled)], by rw [h]⟩
  · exact ⟨[(c, st.mapsEnabled), (c, false)], by rw [h]⟩

/-- The walk only ever appends to the invocation log. -/
lemma walkProfiles_invocations_extend (render : ℕ → RenderOutcome)
    (cands : List String) :
    ∀ (a : String) (st : WalkState), ∃ t,
      (walkProfiles render cands a st).st.invocations =
        st.invocations ++ t := by
  induction cands with
  | nil => intro a st; exact ⟨[], by simp [walkProfiles]⟩
  | cons c rest ih =>
    intro a st
    show ∃ t, (walkStep (walkProfiles render rest c) c (walkOne render c st).1
      (pyLower (normalizeConsoleLine (walkOne render c st).1.lastLine))
      (walkOne render c st).2).st.invocations = st.invocations ++ t
    obtain ⟨t1, ht1⟩ := walkOne_inv_extend render c st
    rcases walkStep_cases (walkProfiles render rest c) c (walkOne render c st).1
        (pyLower (normalizeConsoleLine (walkOne render c st).1.lastLine))
        (walkOne render c st).2 with
      ⟨_, heq⟩ | ⟨_, _, heq⟩ | ⟨_, _, heq⟩
    · rw [heq]
      exact ⟨t1, ht1⟩
    · rw [heq]
      exact ⟨t1, ht1⟩
    · rw [heq]
      obtain ⟨t2, ht2⟩ := ih c (WalkState.mk (walkOne render c st).2.invocations
        (walkOne render c st).2.mapsEnabled (walkOne render c st).2.mapFallbackUsed
        (some (classifyError
          (pyLower (normalizeConsoleLine (walkOne render c st).1.lastLine))
          (walkOne render c st).1.code c)) (walkOne render c st).2.elapsed)
      refine ⟨t1 ++ t2, ?_⟩
      rw [ht2]
      show (walkOne render c st).2.invocations ++ t2 = _
      rw [ht1, List.append_assoc]

/-- The walk performs at most one invocation per candidate, plus at
most one maps-disabled retry for the whole task (none when the
fallback was already used). -/
lemma walkProfiles_invocations_bound (render : ℕ → RenderOutcome)
    (cands : List String) :
    ∀ (a : String) (st : WalkState),
      (walkProfiles render cands a st).st.invocations.length ≤
        st.invocations.length + cands.length +
          (if st.mapFallbackUsed then 0 else 1) := by
  induction cands with
  | nil =>
    intro a st
    show st.invocations.length ≤ _
    split_ifs <;> omega
  | cons c rest ih =>
    intro a st
    show (walkStep (walkProfiles render rest c) c (walkOne render c st).1
      (pyLower (normalizeConsoleLine (walkOne render c st).1.lastLine))
      (walkOne render c st).2).st.invocations.length ≤ _
    rcases walkStep_cases (walkProfiles render rest c) c (walkOne render c st).1
        (pyLower (normalizeConsoleLine (walkOne render c st).1.lastLine))
        (walkOne render c st).2 with
      ⟨_, heq⟩ | ⟨_, _, heq⟩ | ⟨_, _, heq⟩
    · rw [heq]
      show (walkOne render c st).2.invocations.length ≤ _
      rcases walkOne_len_flag render c st with ⟨hl, _⟩ | ⟨hf, hl, _⟩
      · rw [hl]
        simp only [List.length_cons]
        split_ifs <;> omega
      · rw [hl, if_neg (by rw [hf]; exact Bool.false_ne_true)]
        simp only [List.length_cons]
        omega
    · rw [heq]
      show (walkOne render c st).2.invocations.length ≤ _
      rcases walkOne_len_flag render c st with ⟨hl, _⟩ | ⟨hf, hl, _⟩
      · rw [hl]
        simp only [List.length_cons]
        split_ifs <;> omega
      · rw [hl, if_neg (by rw [hf]; exact Bool.false_ne_true)]
        simp only [List.length_cons]
        omega
    · rw [heq]
      have hih := ih c (WalkState.mk (walkOne render c st).2.invocations
        (walkOne render c st).2.mapsEnabled (walkOne render c st).2.mapFallbackUsed
        (some (classifyError
          (pyLower (normalizeConsoleLine (walkOne render c st).1.lastLine))
          (walkOne render c st).1.code c)) (walkOne render c st).2.elapsed)
      have hih2 : (walkProfiles render rest c
          (WalkState.mk (walkOne render c st).2.invocations
            (walkOne render c st).2.mapsEnabled
            (walkOne render c st).2.mapFallbackUsed
            (some (classifyError
              (pyLower (normalizeConsoleLine (walkOne render c st).1.lastLine))
              (walkOne render c st).1.code c))
            (walkOne render c st).2.elapsed)).st.invocations.length ≤
          (walkOne render c st).2.invocations.length + rest.length +
            (if (walkOne render c st).2.mapFallbackUsed = true then 0 else 1) := hih
      refine le_trans hih2 ?_
      rcases walkOne_len_flag render c st with ⟨hl, hf⟩ | ⟨hf0, hl, hf⟩
      · by_cases hflag : st.mapFallbackUsed = true
        · rw [hl, if_pos (hf.trans hflag), if_pos hflag]
          simp only [List.length_cons]
          omega
        · rw [hl, if_neg (fun h => hflag (hf.symm.trans h)), if_neg hflag]
          simp only [List.length_cons]
          omega
      · rw [hl, if_pos hf, if_neg (by rw [hf0]; exact Bool.false_ne_true)]
        simp only [List.length_cons]
        omega

/-- A failing attempt with maps on, the fallback unspent, and the
map-tile signature in its normalized output triggers the retry: the
same candidate is re-invoked immediately with maps disabled and the
fallback marked spent. -/
lemma walkOne_fallback (render : ℕ → RenderOutcome) (c : String)
    (st : WalkState)
    (hmaps : st.mapsEnabled = true) (hflag : st.mapFallbackUsed = false)
    (hfail : (render st.invocations.length).code ≠ 0)
    (hsig : strContains (pyLower (normalizeConsoleLine
      (render st.invocations.length).lastLine)) mapFailureSig = true) :
    walkOne render c st =
      (render (st.invocations.length + 1),
       WalkState.mk (st.invocations ++ [(c, true), (c, false)]) false true
         st.lastError
         (st.elapsed + (render st.invocations.length).elapsed +
           (render (st.invocations.length + 1)).elapsed)) := by
  have hcond : (render st.invocations.length).code ≠ 0 ∧
      st.mapsEnabled = true ∧ st.mapFallbackUsed = false ∧
      strContains (pyLower (normalizeConsoleLine
        (render st.invocations.length).lastLine)) mapFailureSig = true :=
    ⟨hfail, hmaps, hflag, hsig⟩
  simp only [walkOne]
  rw [if_pos hcond, hmaps]
  have hlen : (st.invocations ++ [(c, true)]).length =
      st.invocations.length + 1 := by simp
  rw [hlen, List.append_assoc]
  rfl

/-- An attempt that does not meet the map-fallback condition is logged
once, flags untouched. -/
lemma walkOne_no_fallback (render : ℕ → RenderOutcome) (c : String)
    (st : WalkState)
    (h : ¬((render st.invocations.length).code ≠ 0 ∧ st.mapsEnabled = true ∧
      st.mapFallbackUsed = false ∧
      strContains (pyLower (normalizeConsoleLine
        (render st.invocations.length).lastLine)) mapFailureSig = true)) :
    walkOne render c st =
      (render st.invocations.length,
       WalkState.mk (st.invocations ++ [(c, st.mapsEnabled)]) st.mapsEnabled
         st.mapFallbackUsed st.lastError
         (st.elapsed + (render st.invocations.length).elapsed)) := by
  simp only [walkOne]
  rw [if_neg h]

/-- The total elapsed time of the first `n` renderer attempts of a
task (the renderer oracle is invoked at consecutive ordinals). -/
def attemptsElapsed (render : ℕ → RenderOutcome) (n : ℕ) : ℚ :=
  ((List.range n).map fun i => (render i).elapsed).sum

lemma attemptsElapsed_succ (render : ℕ → RenderOutcome) (n : ℕ) :
    attemptsElapsed render (n + 1) =
      attemptsElapsed render n + (render n).elapsed := by
  unfold attemptsElapsed
  rw [List.range_succ]
  simp

/-- Each `walkOne` attempt invokes the renderer at the ordinal equal
to the current invocation count, so a state whose elapsed field is the
sum of the elapsed times of its logged attempts keeps that shape. -/
lemma walkOne_elapsed_sum (render : ℕ → RenderOutcome) (c : String)
    (st : WalkState)
    (h : st.elapsed = attemptsElapsed render st.invocations.length) :
    (walkOne render c st).2.elapsed =
      attemptsElapsed render (walkOne render c st).2.invocations.length := by
  rcases walkOne_state_cases render c st with heq | ⟨_, _, heq⟩
  · rw [heq]
    show st.elapsed + (render st.invocations.length).elapsed =
      attemptsElapsed render (st.invocations ++ [(c, st.mapsEnabled)]).length
    rw [show (st.invocations ++ [(c, st.mapsEnabled)]).length =
      st.invocations.length + 1 by simp]
    rw [attemptsElapsed_succ, h]
  · rw [heq]
    show st.elapsed + (render st.invocations.length).elapsed +
        (render (st.invocations ++ [(c, st.mapsEnabled)]).length).elapsed =
      attemptsElapsed render
        (st.invocations ++ [(c, st.mapsEnabled), (c, false)]).length
    rw [show (st.invocations ++ [(c, st.mapsEnabled)]).length =
      st.invocations.length + 1 by simp]
    rw [show (st.invocations ++ [(c, st.mapsEnabled), (c, false)]).length =
      st.invocations.length + 1 + 1 by simp]
    rw [attemptsElapsed_succ, attemptsElapsed_succ, h]

/-- The final elapsed time of a whole profile walk accumulates the
elapsed time of every renderer attempt the walk performed. -/
lemma walkProfiles_elapsed_sum (render : ℕ → RenderOutcome)
    (cands : List String) :
    ∀ (a : String) (st : WalkState),
      st.elapsed = attemptsElapsed render st.invocations.length →
      (walkProfiles render cands a st).st.elapsed =
        attemptsElapsed render
          (walkProfiles render cands a st).st.invocations.length := by
  induction cands with
  | nil =>
    intro a st h
    exact h
  | cons c rest ih =>
    intro a st h
    show (walkStep (walkProfiles render rest c) c (walkOne render c st).1
      (pyLower (normalizeConsoleLine (walkOne render c st).1.lastLine))
      (walkOne render c st).2).st.elapsed =
      attemptsElapsed render
        (walkStep (walkProfiles render rest c) c (walkOne render c st).1
          (pyLower (normalizeConsoleLine (walkOne render c st).1.lastLine))
          (walkOne render c st).2).st.invocations.length
    have hone := walkOne_elapsed_sum render c st h
    rcases walkStep_cases (walkProfiles render rest c) c (walkOne render c st).1
        (pyLower (normalizeConsoleLine (walkOne render c st).1.lastLine))
        (walkOne render c st).2 with
      ⟨_, heq⟩ | ⟨_, _, heq⟩ | ⟨_, _, heq⟩
    · rw [heq]
      exact hone
    · rw [heq]
      exact hone
    · rw [heq]
      exact ih c (WalkState.mk (walkOne render c st).2.invocations
        (walkOne render c st).2.mapsEnabled (walkOne render c st).2.mapFallbackUsed
        (some (classifyError
          (pyLower (normalizeConsoleLine (walkOne render c st).1.lastLine))
          (walkOne render c st).1.code c)) (walkOne render c st).2.elapsed) hone

/-- **C2 (amended).**  Exactly one render sample is appended per task
whose attempt sequence reaches a terminal render outcome — a failed
profile walk, or a successful walk whose upload succeeds — however
many candidate profiles the task tried, and every appended sample
carries as its elapsed time the accumulated elapsed time of all the
renderer attempts the task made (rounded to 3 decimals); a task
interrupted by a probe exception (no metadata) or an upload exception
appends none; and the sample history is append-only: a processing
pass only ever extends the existing history. -/
theorem renderSample_once_per_terminal_outcome (env : ProcessEnv)
    (settings : JobSettings) (index : ℕ) (v : VideoState) :
    ((processVideo env settings index v).samples.length ≤ 1) ∧
    (env.probe index = none →
      (processVideo env settings index v).samples = []) ∧
    (∀ m : VideoMetadata, env.probe index = some m →
      ((walkProfiles (env.render index)
          (selectRenderProfile env m settings.renderProfile).2
          (selectRenderProfile env m settings.renderProfile).1
          (initWalkState settings.includeMaps)).success = false →
        (processVideo env settings index v).samples.length = 1) ∧
      ((walkProfiles (env.render index)
          (selectRenderProfile env m settings.renderProfile).2
          (selectRenderProfile env m settings.renderProfile).1
          (initWalkState settings.includeMaps)).success = true →
        (processVideo env settings index v).samples.length =
          (if env.uploadOk index then 1 else 0)) ∧
      (∀ s ∈ (processVideo env settings index v).samples,
        s.renderElapsedSeconds = some (pyRound
          (attemptsElapsed (env.render index)
            (processVideo env settings index v).invocations.length) 3))) ∧
    (∀ history : List RenderSampleRec, ∀ job : Job,
      (runJobWithHistory history env job).1 =
        history ++ (processJob env job).samples) := by
  refine ⟨?_, ?_, ?_, ?_⟩
  · unfold processVideo
    cases env.probe index with
    | none => simp
    | some m =>
      dsimp only
      split_ifs <;> simp
  · intro hnone
    unfold processVideo
    rw [hnone]
  · intro m hm
    have hsum := walkProfiles_elapsed_sum (env.render index)
      (selectRenderProfile env m settings.renderProfile).2
      (selectRenderProfile env m settings.renderProfile).1
      (initWalkState settings.includeMaps)
      (by simp [initWalkState, attemptsElapsed])
    refine ⟨?_, ?_, ?_⟩
    · intro hw
      unfold processVideo
      rw [hm]
      dsimp only
      rw [if_neg (by rw [hw]; exact fun h => Bool.noConfusion h)]
      rfl
    · intro hw
      unfold processVideo
      rw [hm]
      dsimp only
      rw [if_pos hw]
      by_cases hu : env.uploadOk index = true
      · rw [if_pos hu, if_pos hu]
        rfl
      · rw [if_neg hu, if_neg hu]
        rfl
    · intro s hs
      unfold processVideo at hs ⊢
      rw [hm] at hs ⊢
      dsimp only at hs ⊢
      by_cases hw : (walkProfiles (env.render index)
          (selectRenderProfile env m settings.renderProfile).2
          (selectRenderProfile env m settings.renderProfile).1
          (initWalkState settings.includeMaps)).success = true
      · rw [if_pos hw] at hs ⊢
        by_cases hu : env.uploadOk index = true
        · rw [if_pos hu] at hs ⊢
          have hseq := List.mem_singleton.mp hs
          rw [hseq]
          show some (pyRound (walkProfiles (env.render index)
              (selectRenderProfile env m settings.renderProfile).2
              (selectRenderProfile env m settings.renderProfile).1
              (initWalkState settings.includeMaps)).st.elapsed 3) =
            some (pyRound (attemptsElapsed (env.render index)
              (walkProfiles (env.render index)
                (selectRenderProfile env m settings.renderProfile).2
                (selectRenderProfile env m settings.renderProfile).1
                (initWalkState settings.includeMaps)).st.invocations.length) 3)
          rw [hsum]
        · rw [if_neg hu] at hs
          exact absurd hs (List.not_mem_nil s)
      · rw [if_neg hw] at hs ⊢
        have hseq := List.mem_singleton.mp hs
        rw [hseq]
        show some (pyRound (walkProfiles (env.render index)
            (selectRenderProfile env m settings.renderProfile).2
            (selectRenderProfile env m settings.renderProfile).1
            (initWalkState settings.includeMaps)).st.elapsed 3) =
          some (pyRound (attemptsElapsed (env.render index)
            (walkProfiles (env.render index)
              (selectRenderProfile env m settings.renderProfile).2
              (selectRenderProfile env m settings.renderProfile).1
              (initWalkState settings.includeMaps)).st.invocations.length) 3)
        rw [hsum]
  · intro history job
    unfold runJobWithHistory
    exact foldl_recordRenderSample _ history

/-- **C2 (amended) witness**: evaluated at the two-candidate failing
scenario — the probe succeeds, the walk fails after two attempts,
exactly one sample is appended, its elapsed time is the accumulated
elapsed time of both attempts, and the history is only extended. -/
theorem renderSample_once_per_terminal_outcome_witness :
    ((processVideo twoAttemptEnv twoAttemptJob.settings 0
        ⟨"ride.mp4", .queued, 0, "Queued", none, none⟩).samples.length = 1) ∧
    (∀ s ∈ (processVideo twoAttemptEnv twoAttemptJob.settings 0
        ⟨"ride.mp4", .queued, 0, "Queued", none, none⟩).samples,
      s.renderElapsedSeconds = some (pyRound
        (attemptsElapsed (twoAttemptEnv.render 0)
          (processVideo twoAttemptEnv twoAttemptJob.settings 0
            ⟨"ride.mp4", .queued, 0, "Queued", none, none⟩).invocations.length) 3)) ∧
    (∀ history : List RenderSampleRec, ∀ job : Job,
      (runJobWithHistory history twoAttemptEnv job).1 =
        history ++ (processJob twoAttemptEnv job).samples) := by
  have h := renderSample_once_per_terminal_outcome twoAttemptEnv
    twoAttemptJob.settings 0 ⟨"ride.mp4", .queued, 0, "Queued", none, none⟩
  have hp := h.2.2.1 ⟨1920, 1080, some 10⟩ (by decide)
  exact ⟨hp.1 (by decide), hp.2.2, h.2.2.2⟩

/-- **C5.** The map fallback fires at most once per task (the walk's
invocation count never exceeds one per candidate plus one), a
map-related failure triggers exactly one maps-disabled retry of the
same candidate, and a second map-related (or any generic) failure on
the retry is handled as an ordinary failure: the walk simply resumes
with the remaining candidates, fallback spent. -/
theorem mapFallback_fires_once (render : ℕ → RenderOutcome) (c : String)
    (rest : List String) (a : String) (st : WalkState)
    (hmaps : st.mapsEnabled = true) (hflag : st.mapFallbackUsed = false)
    (hfail : (render st.invocations.length).code ≠ 0)
    (hsig : strContains (pyLower (normalizeConsoleLine
      (render st.invocations.length).lastLine)) mapFailureSig = true) :
    (∀ (cands : List String) (a0 : String) (s0 : WalkState),
      (walkProfiles render cands a0 s0).st.invocations.length ≤
        s0.invocations.length + cands.length +
          (if s0.mapFallbackUsed then 0 else 1)) ∧
    (∃ t, (walkProfiles render (c :: rest) a st).st.invocations =
        st.invocations ++ [(c, true), (c, false)] ++ t) ∧
    ((render (st.invocations.length + 1)).code ≠ 0 →
      strContains (pyLower (normalizeConsoleLine
        (render (st.invocations.length + 1)).lastLine)) overlapSig = false →
      walkProfiles render (c :: rest) a st =
        walkProfiles render rest c (WalkState.mk
          (st.invocations ++ [(c, true), (c, false)]) false true
          (some (classifyError (pyLower (normalizeConsoleLine
            (render (st.invocations.length + 1)).lastLine))
            (render (st.invocations.length + 1)).code c))
          (st.elapsed + (render st.invocations.length).elapsed +
            (render (st.invocations.length + 1)).elapsed))) := by
  have hOne := walkOne_fallback render c st hmaps hflag hfail hsig
  have hw : walkProfiles render (c :: rest) a st =
      walkStep (walkProfiles render rest c) c (walkOne render c st).1
        (pyLower (normalizeConsoleLine (walkOne render c st).1.lastLine))
        (walkOne render c st).2 := rfl
  refine ⟨fun cands a0 s0 => walkProfiles_invocations_bound render cands a0 s0,
    ?_, ?_⟩
  · rw [hw, hOne]
    dsimp only
    rcases walkStep_cases (walkProfiles render rest c) c
        (render (st.invocations.length + 1))
        (pyLower (normalizeConsoleLine
          (render (st.invocations.length + 1)).lastLine))
        (WalkState.mk (st.invocations ++ [(c, true), (c, false)]) false true
          st.lastError
          (st.elapsed + (render st.invocations.length).elapsed +
            (render (st.invocations.length + 1)).elapsed)) with
      ⟨_, heq⟩ | ⟨_, _, heq⟩ | ⟨_, _, heq⟩
    · rw [heq]
      exact ⟨[], by simp⟩
    · rw [heq]
      exact ⟨[], by simp⟩
    · rw [heq]
      obtain ⟨t, ht⟩ := walkProfiles_invocations_extend render rest c _
      rw [ht]
      exact ⟨t, by simp⟩
  · intro hfail2 hov2
    rw [hw, hOne]
    dsimp only
    unfold walkStep
    rw [if_neg hfail2, if_neg (by rw [hov2]; exact Bool.false_ne_true)]

/-- **C5 witness**: maps enabled, the first invocation fails with the
map signature, the retry fails with it again — one retry of the same
candidate, then an ordinary continuation. -/
theorem mapFallback_fires_once_witness :
    ((∀ (cands : List String) (a0 : String) (s0 : WalkState),
      (walkProfiles (fun _ => ⟨1, "Images do not match", 2⟩) cands a0 s0).st.invocations.length ≤
        s0.invocations.length + cands.length +
          (if s0.mapFallbackUsed then 0 else 1)) ∧
    (∃ t, (walkProfiles (fun _ => ⟨1, "Images do not match", 2⟩)
        ["a", "b"] "a" (initWalkState true)).st.invocations =
        (initWalkState true).invocations ++ [("a", true), ("a", false)] ++ t) ∧
    (((fun (_ : ℕ) => (⟨1, "Images do not match", 2⟩ : RenderOutcome))
        ((initWalkState true).invocations.length + 1)).code ≠ 0 →
      strContains (pyLower (normalizeConsoleLine
        ((fun (_ : ℕ) => (⟨1, "Images do not match", 2⟩ : RenderOutcome))
          ((initWalkState true).invocations.length + 1)).lastLine)) overlapSig = false →
      walkProfiles (fun _ => ⟨1, "Images do not match", 2⟩) ["a", "b"] "a"
          (initWalkState true) =
        walkProfiles (fun _ => ⟨1, "Images do not match", 2⟩) ["b"] "a"
          (WalkState.mk
            ((initWalkState true).invocations ++ [("a", true), ("a", false)])
            false true
            (some (classifyError (pyLower (normalizeConsoleLine
              ((fun (_ : ℕ) => (⟨1, "Images do not match", 2⟩ : RenderOutcome))
                ((initWalkState true).invocations.length + 1)).lastLine))
              ((fun (_ : ℕ) => (⟨1, "Images do not match", 2⟩ : RenderOutcome))
                ((initWalkState true).invocations.length + 1)).code "a"))
            ((initWalkState true).elapsed +
              ((fun (_ : ℕ) => (⟨1, "Images do not match", 2⟩ : RenderOutcome))
                (initWalkState true).invocations.length).elapsed +
              ((fun (_ : ℕ) => (⟨1, "Images do not match", 2⟩ : RenderOutcome))
                ((initWalkState true).invocations.length + 1)).elapsed)))) :=
  mapFallback_fires_once (fun _ => ⟨1, "Images do not match", 2⟩) "a" ["b"] "a"
    (initWalkState true) (by decide) (by decide) (by decide) (by decide)

/-- **C6.** A failed attempt whose normalized last line carries the
non-recoverable signature stops the walk at once: with two or more
candidates, a non-recoverable failure on the first candidate leaves
exactly one recorded invocation, the walk unsuccessful, and the
classified error retained. -/
theorem nonrecoverable_short_circuit (render : ℕ → RenderOutcome)
    (c0 c1 : String) (rest : List String) (a : String) (st : WalkState)
    (hfail : (render st.invocations.length).code ≠ 0)
    (hsig : strContains (pyLower (normalizeConsoleLine
      (render st.invocations.length).lastLine)) overlapSig = true)
    (hnomap : strContains (pyLower (normalizeConsoleLine
      (render st.invocations.length).lastLine)) mapFailureSig = false) :
    (walkProfiles render (c0 :: c1 :: rest) a st).success = false ∧
    (walkProfiles render (c0 :: c1 :: rest) a st).st.invocations =
      st.invocations ++ [(c0, st.mapsEnabled)] ∧
    (walkProfiles render (c0 :: c1 :: rest) a st).st.lastError =
      some (classifyError (pyLower (normalizeConsoleLine
        (render st.invocations.length).lastLine))
        (render st.invocations.length).code c0) := by
  have hOne := walkOne_no_fallback render c0 st
    (fun hc => absurd hc.2.2.2 (by rw [hnomap]; exact Bool.false_ne_true))
  have hw : walkProfiles render (c0 :: c1 :: rest) a st =
      walkStep (walkProfiles render (c1 :: rest) c0) c0 (walkOne render c0 st).1
        (pyLower (normalizeConsoleLine (walkOne render c0 st).1.lastLine))
        (walkOne render c0 st).2 := rfl
  rw [hw, hOne]
  dsimp only
  unfold walkStep
  rw [if_neg hfail, if_pos hsig]
  exact ⟨rfl, rfl, rfl⟩

/-- **C6 witness**: two candidates, non-recoverable failure on the
first — a single invocation, no second attempt. -/
theorem nonrecoverable_short_circuit_witness :
    ((walkProfiles
        (fun _ => ⟨1, "Track and video " ++ "don" ++ apos ++ "t overlap in time", 1⟩)
        ["a", "b"] "a" (initWalkState false)).success = false ∧
    (walkProfiles
        (fun _ => ⟨1, "Track and video " ++ "don" ++ apos ++ "t overlap in time", 1⟩)
        ["a", "b"] "a" (initWalkState false)).st.invocations =
      (initWalkState false).invocations ++ [("a", (initWalkState false).mapsEnabled)] ∧
    (walkProfiles
        (fun _ => ⟨1, "Track and video " ++ "don" ++ apos ++ "t overlap in time", 1⟩)
        ["a", "b"] "a" (initWalkState false)).st.lastError =
      some (classifyError (pyLower (normalizeConsoleLine
        ((fun (_ : ℕ) => (⟨1, "Track and video " ++ "don" ++ apos ++ "t overlap in time", 1⟩ : RenderOutcome))
          (initWalkState false).invocations.length).lastLine))
        ((fun (_ : ℕ) => (⟨1, "Track and video " ++ "don" ++ apos ++ "t overlap in time", 1⟩ : RenderOutcome))
          (initWalkState false).invocations.length).code "a")) :=
  nonrecoverable_short_circuit
    (fun _ => ⟨1, "Track and video " ++ "don" ++ apos ++ "t overlap in time", 1⟩)
    "a" "b" [] "a" (initWalkState false) (by decide) (by decide) (by decide)

/-! ## ETA calibration engine (`_build_render_eta_calibration`)

Floats are modelled as rationals; `sorted` as a stable insertion sort
(only the multiset matters for medians); `round` as exact decimal
round-half-to-even. -/

def ETA_DEFAULT_MAPS_MULTIPLIER : ℚ := 1.05
def ETA_DEFAULT_SOURCE_ROUNDED_MULTIPLIER : ℚ := 0.91
def ETA_DEFAULT_FIXED_MULTIPLIER_INTERCEPT : ℚ := 0.32
def ETA_DEFAULT_FIXED_MULTIPLIER_SLOPE : ℚ := 0.02
def ETA_DEFAULT_FIXED_MULTIPLIER_MIN : ℚ := 0.45
def ETA_ANCHOR_MEGA_PIXELS : List ℚ := [0.92, 2.07, 4.11, 8.29, 15.87]

def ETA_BASE_PROFILE_POINTS : List (String × List (ℚ × ℚ)) :=
  [("h264-fast",
    [(0.92, 0.839), (2.07, 1.182), (4.11, 2.14), (8.29, 3.518), (15.87, 10.776)]),
   ("h264-source",
    [(0.92, 0.933), (2.07, 1.231), (4.11, 2.241), (8.29, 3.79), (15.87, 11.402)]),
   ("h264-4k-compat",
    [(0.92, 0.867), (2.07, 1.272), (4.11, 2.516), (8.29, 3.698), (15.87, 11.209)]),
   ("qt-hevc-balanced",
    [(0.9, 0.75), (2.1, 1.25), (4.1, 2.3), (8.3, 4.4), (15.9, 8.1)]),
   ("qt-hevc-high",
    [(0.9, 0.95), (2.1, 1.6), (4.1, 3.0), (8.3, 5.8), (15.9, 10.6)])]

/-- `_safe_float`: `None` for missing values and values not `> 0`. -/
def safeFloatQ : Option ℚ → Option ℚ
  | none => none
  | some v => if v > 0 then some v else none

/-- Stable ascending insertion used to model Python `sorted`. -/
def insertLe (x : ℚ) : List ℚ → List ℚ
  | [] => [x]
  | y :: rest => if x ≤ y then x :: y :: rest else y :: insertLe x rest

def pySorted : List ℚ → List ℚ
  | [] => []
  | x :: rest => insertLe x (pySorted rest)

/-- `_median`. -/
def median (values : List ℚ) : Option ℚ :=
  if values = [] then none
  else
    let ordered := pySorted values
    let mid := ordered.length / 2
    if ordered.length % 2 = 1 then some (ordered.getD mid 0)
    else some ((ordered.getD (mid - 1) 0 + ordered.getD mid 0) / 2)

/-- `confidence = min(sample_count, 16) / 16.0`. -/
def etaConfidence (count : ℕ) : ℚ := ((min count 16 : ℕ) : ℚ) / 16

/-- The per-anchor blend of `_build_render_eta_calibration`: the
baseline value when no observation exists, otherwise
`base*(1-confidence) + median*confidence`. -/
def blendedX (baseX : ℚ) (observations : List ℚ) : ℚ :=
  match median observations with
  | none => baseX
  | some measured =>
    baseX * (1 - etaConfidence observations.length) +
      measured * etaConfidence observations.length

/-- `_nearest_eta_anchor` (Python `min(..., key=...)` keeps the first
minimum, as does this fold with a strict comparison). -/
def nearestEtaAnchor (megaPixels : ℚ) : ℚ :=
  if megaPixels ≤ 0 then ETA_ANCHOR_MEGA_PIXELS.headD 0
  else
    match ETA_ANCHOR_MEGA_PIXELS with
    | [] => 0
    | a :: rest =>
      rest.foldl (fun best x =>
        if |x - megaPixels| < |best - megaPixels| then x else best) a

/-- `ETA_BASE_PROFILE_POINTS.get(profile_id) or
ETA_BASE_PROFILE_POINTS["h264-source"]` (an empty list is falsy). -/
def baselinePointsFor (profileId : String) : List (ℚ × ℚ) :=
  match ETA_BASE_PROFILE_POINTS.lookup profileId with
  | some pts =>
    if pts.isEmpty then (ETA_BASE_PROFILE_POINTS.lookup "h264-source").getD []
    else pts
  | none => (ETA_BASE_PROFILE_POINTS.lookup "h264-source").getD []

/-- `_interpolate_eta_points` beyond the first point: walk the
segments; past the last anchor extrapolate with the last segment's
slope, clamped to the 0.2 floor.  `beforePrev` tracks `points[-2]`. -/
def interpAfter (beforePrev prev : ℚ × ℚ) :
    List (ℚ × ℚ) → ℚ → ℚ
  | [], megaPixels =>
    let span := max (prev.1 - beforePrev.1) 0.0001
    let slope := (prev.2 - beforePrev.2) / span
    max 0.2 (prev.2 + (megaPixels - prev.1) * slope)
  | cur :: rest, megaPixels =>
    if megaPixels ≤ cur.1 then
      let span := cur.1 - prev.1
      if span ≤ 0 then cur.2
      else prev.2 + (megaPixels - prev.1) / span * (cur.2 - prev.2)
    else interpAfter prev cur rest megaPixels

/-- `_interpolate_eta_points`. -/
def interpolateEtaPoints (points : List (ℚ × ℚ)) (megaPixels : ℚ) : ℚ :=
  match points with
  | [] => 1
  | p0 :: rest => if megaPixels ≤ p0.1 then p0.2 else interpAfter p0 p0 rest megaPixels

/-- `_default_eta_point_for_profile`. -/
def defaultEtaPointForProfile (profileId : String) (megaPixels : ℚ) : ℚ :=
  interpolateEtaPoints (baselinePointsFor profileId) megaPixels

/-- A sample that survived the successful-sample filter, with its
derived megapixels and wall-time multiple. -/
structure SuccessfulSample where
  base : RenderSampleRec
  megaPixels : ℚ
  wallX : ℚ
deriving DecidableEq, Repr

/-- The successful-sample filter at the top of
`_build_render_eta_calibration`: success only, positive duration and
elapsed, elapsed within 240x real time, plausible dimensions. -/
def successfulSamples (samples : List RenderSampleRec) :
    List SuccessfulSample :=
  samples.filterMap fun s =>
    if s.success = false then none
    else
      match safeFloatQ s.sourceDurationSeconds,
            safeFloatQ s.renderElapsedSeconds with
      | some d, some e =>
        if e > d * 240 then none
        else if s.sourceWidth < 2 ∨ s.sourceHeight < 2 then none
        else
          let megaPixels := ((s.sourceWidth * s.sourceHeight : ℤ) : ℚ) / 1000000
          if megaPixels ≤ 0 then none
          else if e / d ≤ 0 then none
          else some ⟨s, megaPixels, e / d⟩
      | _, _ => none

/-- `str(sample.get("fps_mode") or "source_exact")`. -/
def fpsModeOf (s : RenderSampleRec) : String :=
  if s.fpsMode = "" then "source_exact" else s.fpsMode

/-- Lexicographic comparison of char lists by code point, matching
Python string ordering. -/
def charListLt : List Char → List Char → Bool
  | [], [] => false
  | [], _ :: _ => true
  | _ :: _, [] => false
  | a :: as, b :: bs =>
    if a < b then true else if b < a then false else charListLt as bs

def strLt (a b : String) : Bool := charListLt a.toList b.toList

/-- Sorted distinct elements — Python `sorted({...})`. -/
def insertDistinctBy {α : Type} [DecidableEq α] (lt : α → α → Bool)
    (x : α) : List α → List α
  | [] => [x]
  | y :: rest =>
    if x = y then y :: rest
    else if lt x y then x :: y :: rest
    else y :: insertDistinctBy lt x rest

def sortedDistinctBy {α : Type} [DecidableEq α] (lt : α → α → Bool)
    (l : List α) : List α :=
  l.foldr (insertDistinctBy lt) []

/-- `sorted({*ETA_BASE_PROFILE_POINTS.keys(), *(profiles of samples)})`. -/
def calibrationProfileIds (successful : List SuccessfulSample) : List String :=
  sortedDistinctBy strLt (ETA_BASE_PROFILE_POINTS.map Prod.fst ++
    successful.map fun s => s.base.renderProfile)

structure EtaPoint where
  megaPixels : ℚ
  xRealtime : ℚ
  sampleCount : ℕ
deriving DecidableEq, Repr

/-- The per-profile anchor table (`profile_points[profile_id]`). -/
def profileCurvePoints (successful : List SuccessfulSample)
    (profileId : String) : List EtaPoint :=
  let baseline := baselinePointsFor profileId
  let profileSamples := successful.filter fun s =>
    decide (s.base.renderProfile = profileId)
  let preferredS := profileSamples.filter fun s =>
    decide (fpsModeOf s.base = "source_exact" ∧ s.base.mapsEnabled = false)
  let selected := if preferredS.length ≥ 2 then preferredS else profileSamples
  baseline.map fun ab =>
    let observations := (selected.filter fun s =>
      decide (nearestEtaAnchor s.megaPixels = ab.1)).map fun s => s.wallX
    { megaPixels := pyRound ab.1 3,
      xRealtime := pyRound (max (blendedX ab.2 observations) 0.2) 4,
      sampleCount := observations.length }

/-- The normalized multiplier of one successful sample: its wall-time
multiple divided by the baseline expectation for its profile and
megapixels; `none` when either guard of the source loop skips it. -/
def normalizedOf (s : SuccessfulSample) : Option ℚ :=
  let profileId := if s.base.renderProfile = "" then "h264-source"
    else s.base.renderProfile
  let baselineX := defaultEtaPointForProfile profileId s.megaPixels
  if baselineX ≤ 0 then none
  else if s.wallX / baselineX ≤ 0 then none
  else some (s.wallX / baselineX)

def modeValues (successful : List SuccessfulSample) (mode : String) :
    List ℚ :=
  successful.filterMap fun s =>
    if fpsModeOf s.base = mode then normalizedOf s else none

def mapsValues (successful : List SuccessfulSample) (flag : Bool) :
    List ℚ :=
  successful.filterMap fun s =>
    if s.base.mapsEnabled = flag then normalizedOf s else none

/-- `_median(normalized_by_mode.get("source_exact", [])) or 1.0`
(`0.0` is falsy). -/
def exactMedian (successful : List SuccessfulSample) : ℚ :=
  match median (modeValues successful "source_exact") with
  | none => 1
  | some m => if m = 0 then 1 else m

def sourceRoundedMultiplierOf (successful : List SuccessfulSample) : ℚ :=
  let em := exactMedian successful
  let raw :=
    match median (modeValues successful "source_rounded") with
    | some rm =>
      if em > 0 then rm / em else ETA_DEFAULT_SOURCE_ROUNDED_MULTIPLIER
    | none => ETA_DEFAULT_SOURCE_ROUNDED_MULTIPLIER
  max 0.45 (min 1.4 raw)

def mapsMultiplierOf (successful : List SuccessfulSample) : ℚ :=
  let raw :=
    match median (mapsValues successful true),
          median (mapsValues successful false) with
    | some onM, some offM =>
      if offM > 0 then onM / offM else ETA_DEFAULT_MAPS_MULTIPLIER
    | _, _ => ETA_DEFAULT_MAPS_MULTIPLIER
  max 0.7 (min 1.5 raw)

/-- The distinct `int(round(fixed_fps))` keys carrying data, sorted —
only samples that survived the normalization loop contribute. -/
def fixedKeys (successful : List SuccessfulSample) : List ℤ :=
  sortedDistinctBy (fun a b => decide (a < b)) (successful.filterMap fun s =>
    if fpsModeOf s.base = "fixed" ∧ (normalizedOf s).isSome then
      match safeFloatQ s.base.fixedFps with
      | some v => some (roundHalfEven v)
      | none => none
    else none)

def fixedPointsFor (successful : List SuccessfulSample) (fps : ℤ) :
    List ℚ :=
  successful.filterMap fun s =>
    if fpsModeOf s.base = "fixed" then
      match safeFloatQ s.base.fixedFps, normalizedOf s with
      | some v, some n => if roundHalfEven v = fps then some n else none
      | _, _ => none
    else none

def fixedMeasurements (successful : List SuccessfulSample) :
    List (ℚ × ℚ) :=
  let em := exactMedian successful
  (fixedKeys successful).filterMap fun fps =>
    match median (fixedPointsFor successful fps) with
    | none => none
    | some mv =>
      if em ≤ 0 then none
      else some ((fps : ℚ), max 0.2 (min 2.0 (mv / em)))

structure FixedSeriesEntry where
  fps : ℤ
  multiplier : ℚ
  sampleCount : ℕ
deriving DecidableEq, Repr

def fixedSeriesOf (successful : List SuccessfulSample) :
    List FixedSeriesEntry :=
  let em := exactMedian successful
  (fixedKeys successful).filterMap fun fps =>
    match median (fixedPointsFor successful fps) with
    | none => none
    | some mv =>
      if em ≤ 0 then none
      else some ⟨fps, pyRound (max 0.2 (min 2.0 (mv / em))) 4,
        (fixedPointsFor successful fps).length⟩

/-- The ordinary-least-squares fit for fixed-fps samples; falls back
to the static defaults below two distinct fps values, and to a
one-point shift at exactly one.  Returns (intercept, slope). -/
def fixedRegression (ms : List (ℚ × ℚ)) : ℚ × ℚ :=
  if ms.length ≥ 2 then
    let xs := ms.map Prod.fst
    let ys := ms.map Prod.snd
    let xMean := xs.sum / (xs.length : ℚ)
    let yMean := ys.sum / (ys.length : ℚ)
    let variance := (xs.map fun x => (x - xMean) ^ 2).sum
    if variance > 0 then
      let slope := (ms.map fun p => (p.1 - xMean) * (p.2 - yMean)).sum / variance
      (yMean - slope * xMean, slope)
    else (ETA_DEFAULT_FIXED_MULTIPLIER_INTERCEPT, ETA_DEFAULT_FIXED_MULTIPLIER_SLOPE)
  else
    match ms with
    | [(fps, mult)] =>
      (mult - ETA_DEFAULT_FIXED_MULTIPLIER_SLOPE * fps,
       ETA_DEFAULT_FIXED_MULTIPLIER_SLOPE)
    | _ => (ETA_DEFAULT_FIXED_MULTIPLIER_INTERCEPT, ETA_DEFAULT_FIXED_MULTIPLIER_SLOPE)

structure EtaCalibration where
  sampleCount : ℕ
  profilePoints : List (String × List EtaPoint)
  mapsMultiplier : ℚ
  sourceRoundedMultiplier : ℚ
  fixedMultiplierIntercept : ℚ
  fixedMultiplierSlope : ℚ
  fixedMultiplierMin : ℚ
  fixedSamples : List FixedSeriesEntry
deriving DecidableEq, Repr

/-- `_build_render_eta_calibration` (the `version`/`generated_at`
metadata fields are elided; the clamps on the regression output and
the final 4-decimal rounding are as in the source). -/
def buildRenderEtaCalibration (samples : List RenderSampleRec) :
    EtaCalibration :=
  { sampleCount := (successfulSamples samples).length,
    profilePoints :=
      ((calibrationProfileIds (successfulSamples samples)).filter
          fun p => decide (p ≠ "")).map
        fun p => (p, profileCurvePoints (successfulSamples samples) p),
    mapsMultiplier := pyRound (mapsMultiplierOf (successfulSamples samples)) 4,
    sourceRoundedMultiplier :=
      pyRound (sourceRoundedMultiplierOf (successfulSamples samples)) 4,
    fixedMultiplierIntercept :=
      pyRound (max 0.1 (min 1.4
        (fixedRegression (fixedMeasurements (successfulSamples samples))).1)) 4,
    fixedMultiplierSlope :=
      pyRound (max 0 (min 0.05
        (fixedRegression (fixedMeasurements (successfulSamples samples))).2)) 4,
    fixedMultiplierMin := ETA_DEFAULT_FIXED_MULTIPLIER_MIN,
    fixedSamples := fixedSeriesOf (successfulSamples samples) }

/-! ## Calibration cold start and blend monotonicity -/

lemma coldPoints4k : profileCurvePoints [] "h264-4k-compat" =
    (baselinePointsFor "h264-4k-compat").map fun ab => EtaPoint.mk ab.1 ab.2 0 := by
  unfold profileCurvePoints
  rw [show baselinePointsFor "h264-4k-compat" =
      [((0.92 : ℚ), (0.867 : ℚ)), (2.07, 1.272), (4.11, 2.516), (8.29, 3.698), (15.87, 11.209)] from rfl]
  norm_num [blendedX, median, pyRound, roundHalfEven]

lemma coldPointsFast : profileCurvePoints [] "h264-fast" =
    (baselinePointsFor "h264-fast").map fun ab => EtaPoint.mk ab.1 ab.2 0 := by
  unfold profileCurvePoints
  rw [show baselinePointsFor "h264-fast" =
      [((0.92 : ℚ), (0.839 : ℚ)), (2.07, 1.182), (4.11, 2.14), (8.29, 3.518), (15.87, 10.776)] from rfl]
  norm_num [blendedX, median, pyRound, roundHalfEven]

lemma coldPointsSource : profileCurvePoints [] "h264-source" =
    (baselinePointsFor "h264-source").map fun ab => EtaPoint.mk ab.1 ab.2 0 := by
  unfold profileCurvePoints
  rw [show baselinePointsFor "h264-source" =
      [((0.92 : ℚ), (0.933 : ℚ)), (2.07, 1.231), (4.11, 2.241), (8.29, 3.79), (15.87, 11.402)] from rfl]
  norm_num [blendedX, median, pyRound, roundHalfEven]

lemma coldPointsBalanced : profileCurvePoints [] "qt-hevc-balanced" =
    (baselinePointsFor "qt-hevc-balanced").map fun ab => EtaPoint.mk ab.1 ab.2 0 := by
  unfold profileCurvePoints
  rw [show baselinePointsFor "qt-hevc-balanced" =
      [((0.9 : ℚ), (0.75 : ℚ)), (2.1, 1.25), (4.1, 2.3), (8.3, 4.4), (15.9, 8.1)] from rfl]
  norm_num [blendedX, median, pyRound, roundHalfEven]

lemma coldPointsHigh : profileCurvePoints [] "qt-hevc-high" =
    (baselinePointsFor "qt-hevc-high").map fun ab => EtaPoint.mk ab.1 ab.2 0 := by
  unfold profileCurvePoints
  rw [show baselinePointsFor "qt-hevc-high" =
      [((0.9 : ℚ), (0.95 : ℚ)), (2.1, 1.6), (4.1, 3.0), (8.3, 5.8), (15.9, 10.6)] from rfl]
  norm_num [blendedX, median, pyRound, roundHalfEven]

lemma coldMaps : pyRound (mapsMultiplierOf []) 4 = ETA_DEFAULT_MAPS_MULTIPLIER := by
  norm_num [mapsMultiplierOf, mapsValues, median, pyRound, roundHalfEven,
    ETA_DEFAULT_MAPS_MULTIPLIER]

lemma coldRounded : pyRound (sourceRoundedMultiplierOf []) 4 =
    ETA_DEFAULT_SOURCE_ROUNDED_MULTIPLIER := by
  norm_num [sourceRoundedMultiplierOf, modeValues, median, exactMedian, pyRound,
    roundHalfEven, ETA_DEFAULT_SOURCE_ROUNDED_MULTIPLIER]

lemma coldIntercept :
    pyRound (max 0.1 (min 1.4 (fixedRegression (fixedMeasurements [])).1)) 4 =
      ETA_DEFAULT_FIXED_MULTIPLIER_INTERCEPT := by
  norm_num [fixedRegression, fixedMeasurements, fixedKeys, pyRound, roundHalfEven,
    ETA_DEFAULT_FIXED_MULTIPLIER_INTERCEPT, ETA_DEFAULT_FIXED_MULTIPLIER_SLOPE,
    sortedDistinctBy]

lemma coldSlope :
    pyRound (max 0 (min 0.05 (fixedRegression (fixedMeasurements [])).2)) 4 =
      ETA_DEFAULT_FIXED_MULTIPLIER_SLOPE := by
  norm_num [fixedRegression, fixedMeasurements, fixedKeys, pyRound, roundHalfEven,
    ETA_DEFAULT_FIXED_MULTIPLIER_INTERCEPT, ETA_DEFAULT_FIXED_MULTIPLIER_SLOPE,
    sortedDistinctBy]

/-- **C7.** With zero recorded render samples the calibration is
exactly the built-in baselines, unmodified: every built-in profile's
anchor table carries the baseline multiplier with sample count 0, and
every scalar multiplier equals its static default. -/
theorem calibration_cold_start :
    buildRenderEtaCalibration [] =
      { sampleCount := 0,
        profilePoints :=
          (sortedDistinctBy strLt (ETA_BASE_PROFILE_POINTS.map Prod.fst)).map
            fun p => (p, (baselinePointsFor p).map fun ab => EtaPoint.mk ab.1 ab.2 0),
        mapsMultiplier := ETA_DEFAULT_MAPS_MULTIPLIER,
        sourceRoundedMultiplier := ETA_DEFAULT_SOURCE_ROUNDED_MULTIPLIER,
        fixedMultiplierIntercept := ETA_DEFAULT_FIXED_MULTIPLIER_INTERCEPT,
        fixedMultiplierSlope := ETA_DEFAULT_FIXED_MULTIPLIER_SLOPE,
        fixedMultiplierMin := ETA_DEFAULT_FIXED_MULTIPLIER_MIN,
        fixedSamples := [] } := by
  have hsucc : successfulSamples [] = [] := rfl
  unfold buildRenderEtaCalibration
  rw [hsucc, EtaCalibration.mk.injEq]
  refine ⟨rfl, ?_, coldMaps, coldRounded, coldIntercept, coldSlope, rfl, rfl⟩
  rw [show (calibrationProfileIds []).filter (fun p => decide (p ≠ "")) =
      ["h264-4k-compat", "h264-fast", "h264-source", "qt-hevc-balanced",
       "qt-hevc-high"] from rfl]
  rw [show sortedDistinctBy strLt (ETA_BASE_PROFILE_POINTS.map Prod.fst) =
      ["h264-4k-compat", "h264-fast", "h264-source", "qt-hevc-balanced",
       "qt-hevc-high"] from rfl]
  simp only [List.map_cons, List.map_nil]
  rw [coldPoints4k, coldPointsFast, coldPointsSource, coldPointsBalanced,
    coldPointsHigh]

lemma etaConfidence_nonneg (count : ℕ) : 0 ≤ etaConfidence count := by
  unfold etaConfidence
  positivity

lemma etaConfidence_le_one (count : ℕ) : etaConfidence count ≤ 1 := by
  unfold etaConfidence
  rw [div_le_one (by norm_num)]
  have : (min count 16 : ℕ) ≤ 16 := min_le_right _ _
  exact_mod_cast this

lemma etaConfidence_mono {a b : ℕ} (h : a ≤ b) :
    etaConfidence a ≤ etaConfidence b := by
  unfold etaConfidence
  have : (min a 16 : ℕ) ≤ min b 16 := min_le_min h le_rfl
  have hc : ((min a 16 : ℕ) : ℚ) ≤ ((min b 16 : ℕ) : ℚ) := by exact_mod_cast this
  linarith

/-- **C8.** For a fixed anchor, holding the observed median fixed, the
blended multiplier is exactly `baseline*(1-confidence) +
median*confidence` with `confidence = min(count, 16)/16`, it always
lies between the baseline and the median, its distance to the median
shrinks as the sample count grows, and from 16 samples on it equals
the median. -/
theorem calibration_blend_monotone (baseX m : ℚ) (obs1 obs2 : List ℚ)
    (h1 : median obs1 = some m) (h2 : median obs2 = some m)
    (hlen : obs1.length ≤ obs2.length) :
    (blendedX baseX obs1 =
      baseX * (1 - etaConfidence obs1.length) + m * etaConfidence obs1.length) ∧
    |blendedX baseX obs2 - m| ≤ |blendedX baseX obs1 - m| ∧
    (16 ≤ obs2.length → blendedX baseX obs2 = m) ∧
    (baseX ≤ m →
      blendedX baseX obs1 ≤ blendedX baseX obs2 ∧ blendedX baseX obs2 ≤ m) ∧
    (m ≤ baseX →
      blendedX baseX obs2 ≤ blendedX baseX obs1 ∧ m ≤ blendedX baseX obs2) := by
  have e1 : blendedX baseX obs1 =
      baseX * (1 - etaConfidence obs1.length) + m * etaConfidence obs1.length := by
    unfold blendedX
    rw [h1]
  have e2 : blendedX baseX obs2 =
      baseX * (1 - etaConfidence obs2.length) + m * etaConfidence obs2.length := by
    unfold blendedX
    rw [h2]
  have hc1n := etaConfidence_nonneg obs1.length
  have hc2n := etaConfidence_nonneg obs2.length
  have hc11 := etaConfidence_le_one obs1.length
  have hc21 := etaConfidence_le_one obs2.length
  have hmono := etaConfidence_mono hlen
  refine ⟨e1, ?_, ?_, ?_, ?_⟩
  · have d1 : blendedX baseX obs1 - m =
        (1 - etaConfidence obs1.length) * (baseX - m) := by rw [e1]; ring
    have d2 : blendedX baseX obs2 - m =
        (1 - etaConfidence obs2.length) * (baseX - m) := by rw [e2]; ring
    rw [d1, d2, abs_mul, abs_mul,
      abs_of_nonneg (by linarith : (0 : ℚ) ≤ 1 - etaConfidence obs1.length),
      abs_of_nonneg (by linarith : (0 : ℚ) ≤ 1 - etaConfidence obs2.length)]
    exact mul_le_mul_of_nonneg_right (by linarith) (abs_nonneg _)
  · intro h16
    have : etaConfidence obs2.length = 1 := by
      unfold etaConfidence
      rw [min_eq_right h16]
      norm_num
    rw [e2, this]
    ring
  · intro hbm
    constructor
    · rw [e1, e2]
      nlinarith
    · rw [e2]
      nlinarith
  · intro hmb
    constructor
    · rw [e1, e2]
      nlinarith
    · rw [e2]
      nlinarith

/-- **C8 witness**: a concrete singleton observation list on a
concrete baseline, the median hypotheses discharged by evaluation. -/
theorem calibration_blend_monotone_witness :
    (blendedX 1 [(2 : ℚ)] =
      1 * (1 - etaConfidence [(2 : ℚ)].length) + 2 * etaConfidence [(2 : ℚ)].length) ∧
    |blendedX 1 [(2 : ℚ)] - 2| ≤ |blendedX 1 [(2 : ℚ)] - 2| ∧
    (16 ≤ [(2 : ℚ)].length → blendedX 1 [(2 : ℚ)] = 2) ∧
    ((1 : ℚ) ≤ 2 →
      blendedX 1 [(2 : ℚ)] ≤ blendedX 1 [(2 : ℚ)] ∧ blendedX 1 [(2 : ℚ)] ≤ 2) ∧
    ((2 : ℚ) ≤ 1 →
      blendedX 1 [(2 : ℚ)] ≤ blendedX 1 [(2 : ℚ)] ∧ 2 ≤ blendedX 1 [(2 : ℚ)]) :=
  calibration_blend_monotone 1 2 [(2 : ℚ)] [(2 : ℚ)] rfl rfl (le_refl 1)

end POverlay
